import Mathlib

/-!
# Skeltrack Desktop Control: gesture interpretation (src/main.c)

A shallow embedding of the gesture state machine of `src/main.c`.

* The file-level `static` variables that persist across frames are the fields
  of `State`.
* Every call that injects an input event through XTest is recorded, in call
  order, in a list of `XEvent`; a function that emits events returns the new
  state together with the events it emitted.
* `gint`/`gint64` values are `Int`; where the C code converts a signed value to
  `guint` (a comparison or a division against an unsigned operand) the
  conversion is written `toGuint`, reduction modulo `2^32`. Signed arithmetic
  is exact: signed overflow is undefined in C, and coordinates are pixel
  positions inside a depth frame, far from the `gint` limits.
* Key codes are whatever `XKeysymToKeycode` answers for the four key symbols
  the program uses; they are the fields of `Keymap`.
-/

namespace Skeltrack

/-! ## Constants (main.c, lines 43-68) -/

/-- Minimum depth gap between head and hand, `GESTURE_THRESHOLD` (gint). -/
def GESTURE_THRESHOLD : Int := 250

/-- Debounce delay in milliseconds, `GESTURE_TIMEOUT` (guint). -/
def GESTURE_TIMEOUT : Nat := 300

/-- Vertical distance that counts as a turned wheel (guint). -/
def WHEEL_TURN_ACTIVATE_DISTANCE : Nat := 35

/-- Distance change that counts as a pinch (guint). -/
def PINCH_ACTIVATE_DISTANCE : Nat := 75

/-! ## Data model -/

/-- The values of `ClutterEventType` that the program stores in
`pointer_1_event_type` and `pointer_2_event_type`. -/
inductive ClutterEventType where
  | CLUTTER_NOTHING
  | CLUTTER_ENTER
  | CLUTTER_MOTION
  | CLUTTER_SCROLL
  | CLUTTER_BUTTON_PRESS
  deriving DecidableEq, Repr

open ClutterEventType

/-- The `struct _Point` of main.c: three `gint` coordinates. -/
structure Point where
  x : Int
  y : Int
  z : Int
  deriving DecidableEq, Repr

/-- A non-null `Point *`: the address of the allocation and the contents found
there. Two pointers are the same pointer when their addresses agree. -/
structure PointRef where
  addr : Nat
  pt : Point
  deriving DecidableEq, Repr

/-- The fields of a `SkeltrackJoint` that the program reads. -/
structure SkeltrackJoint where
  screen_x : Int
  screen_y : Int
  z : Int
  deriving DecidableEq, Repr

/-- What `skeltrack_joint_list_get_joint` answers on a non-null joint list for
the three joint identifiers the program asks for (`none` is `NULL`). -/
structure SkeltrackJointList where
  head : Option SkeltrackJoint
  left_hand : Option SkeltrackJoint
  right_hand : Option SkeltrackJoint
  deriving DecidableEq, Repr

/-- One call to the XTest injection interface. `Motion x y` records a call of
`set_mouse_pointer (x, y)` (one `XTestFakeMotionEvent`; the arguments are the
sensor-space coordinates handed to it). `Key k true` is a key press of key
code `k`, `Key k false` a key release; likewise for `Button`. -/
inductive XEvent where
  | Motion (x y : Int)
  | Key (keycode : Nat) (is_press : Bool)
  | Button (button : Nat) (is_press : Bool)
  deriving DecidableEq, Repr

/-- The answers of `XKeysymToKeycode (display, ...)` for the key symbols used
by the program. -/
structure Keymap where
  XK_Right : Nat
  XK_Left : Nat
  XK_Up : Nat
  XK_Control_L : Nat
  deriving DecidableEq, Repr

/-- The environment of one frame: the keyboard mapping and the value of the
toggle `DOUBLE_HAND_WHEEL_MODE`. -/
structure Env where
  keys : Keymap
  DOUBLE_HAND_WHEEL_MODE : Bool
  deriving DecidableEq, Repr

/-- The persisted variables of main.c (lines 55-56 and 72-78). `heap_next` is
the address that the next `g_slice_new0 (Point)` returns: every allocation
gets an address that was never handed out before. -/
structure State where
  pointer_1_event_type : ClutterEventType
  pointer_2_event_type : ClutterEventType
  pointer_1 : Option PointRef
  pointer_2 : Option PointRef
  last_left_point : Option PointRef
  last_right_point : Option PointRef
  pointer_enter_time : Int
  old_distance : Int
  last_key : Nat
  heap_next : Nat
  deriving DecidableEq, Repr

/-- The initial values of the persisted variables. -/
def State.init : State where
  pointer_1_event_type := CLUTTER_NOTHING
  pointer_2_event_type := CLUTTER_NOTHING
  pointer_1 := none
  pointer_2 := none
  last_left_point := none
  last_right_point := none
  pointer_enter_time := 0
  old_distance := -1
  last_key := 0
  heap_next := 1

/-! ## Arithmetic helpers -/

/-- The glib macro `ABS`. -/
def ABS (a : Int) : Int := if a < 0 then -a else a

/-- Conversion of a signed value to `guint`. -/
def toGuint (v : Int) : Nat := (v % 4294967296).toNat

/-- Pointer comparison `p == q` of two nullable `Point *`. -/
def ptr_eq (p q : Option PointRef) : Bool :=
  p.map PointRef.addr == q.map PointRef.addr

/-! ## Event emitters (main.c, lines 147-187) -/

/-- The event emitted by `key_down`. -/
def key_down (keycode : Nat) : List XEvent := [XEvent.Key keycode true]

/-- The event emitted by `key_up`. -/
def key_up (keycode : Nat) : List XEvent := [XEvent.Key keycode false]

/-- The event emitted by `mouse_down`. -/
def mouse_down (button : Nat) : List XEvent := [XEvent.Button button true]

/-- The event emitted by `mouse_up`. -/
def mouse_up (button : Nat) : List XEvent := [XEvent.Button button false]

/-- The events emitted by `mouse_click`: a press followed by a release. -/
def mouse_click (button : Nat) : List XEvent :=
  [XEvent.Button button true, XEvent.Button button false]

/-- The event recorded for `set_mouse_pointer (x, y)`. -/
def set_mouse_pointer (x y : Int) : List XEvent := [XEvent.Motion x y]

/-! ## get_distance (lines 103-110) -/

/-- The function `get_distance`: `sqrt (dx * dx + dy * dy)` truncated to `gint`.
The square root of a non-negative integer below `2^31`, computed in double
precision and truncated, is the integer square root. -/
def get_distance (point_a point_b : Point) : Int :=
  let dx := ABS (point_a.x - point_b.x)
  let dy := ABS (point_a.y - point_b.y)
  (Nat.sqrt (dx * dx + dy * dy).toNat : Nat)

/-! ## hand_is_active (lines 189-193) -/

/-- The function `hand_is_active`. -/
def hand_is_active (head : SkeltrackJoint) (hand : Option SkeltrackJoint) : Bool :=
  match hand with
  | none => false
  | some h => decide (ABS (head.z - h.z) > GESTURE_THRESHOLD)

/-! ## both_hands_left (lines 195-221) -/

/-- The function `both_hands_left`. -/
def both_hands_left (env : Env) (s : State) : State × List XEvent :=
  let ev1 := [XEvent.Button 1 false]
  let s1 : State :=
    { s with pointer_1 := none, pointer_2 := none,
             pointer_1_event_type := CLUTTER_NOTHING,
             pointer_2_event_type := CLUTTER_NOTHING,
             old_distance := -1 }
  if s1.last_key ≠ 0 then
    ({ s1 with last_key := 0 },
      ev1 ++ [XEvent.Key s1.last_key false, XEvent.Key env.keys.XK_Up false])
  else
    (s1, ev1)

/-! ## interpret_wheel_gesture (lines 223-257) -/

/-- The directional key code chosen by `interpret_wheel_gesture`
(lines 231-240). -/
def wheel_keycode (env : Env) (pointer_1 pointer_2 : Point) : Nat :=
  if pointer_1.y < pointer_2.y then env.keys.XK_Right else env.keys.XK_Left

/-- The function `interpret_wheel_gesture`. The local `keycode` first holds the
directional key code; line 254 overwrites it with the key code of `XK_Up`
before line 256 stores it in `last_key`. -/
def interpret_wheel_gesture (env : Env) (pointer_1 pointer_2 : Point) (s : State) :
    State × List XEvent :=
  let keycode := wheel_keycode env pointer_1 pointer_2
  let ev1 := if s.last_key ≠ 0 ∧ keycode ≠ s.last_key then key_up s.last_key else []
  let ev2 :=
    if toGuint (ABS (pointer_1.y - pointer_2.y)) / WHEEL_TURN_ACTIVATE_DISTANCE ≠ 0 then
      key_down keycode
    else
      key_up keycode
  let keycode2 := env.keys.XK_Up
  let ev3 := key_down keycode2
  ({ s with last_key := keycode2 }, ev1 ++ ev2 ++ ev3)

/-! ## interpret_pinch_gesture (lines 259-290) -/

/-- The function `interpret_pinch_gesture`. -/
def interpret_pinch_gesture (env : Env) (pointer_1 pointer_2 : Point) (s : State) :
    State × List XEvent :=
  if s.old_distance = -1 then
    ({ s with old_distance := get_distance pointer_1 pointer_2 }, [])
  else
    let new_distance := get_distance pointer_1 pointer_2
    if toGuint (ABS (s.old_distance - new_distance)) > PINCH_ACTIVATE_DISTANCE then
      let keycode := env.keys.XK_Control_L
      let ev :=
        key_down keycode
          ++ (if s.old_distance < new_distance then mouse_click 4 else mouse_click 5)
          ++ key_up keycode
      ({ s with old_distance := new_distance }, ev)
    else
      (s, [])

/-! ## smooth_point (lines 576-624) -/

/-- The running sums and the count of `smooth_point`: `closest->x`,
`closest->y` and `count`. -/
structure SmoothAcc where
  x : Int
  y : Int
  count : Int
  deriving DecidableEq, Repr

/-- The body of the inner loop of `smooth_point` (lines 606-616) for the
neighbour in column `i`, row `j`. -/
def smooth_cell (buffer : Nat → Nat) (width height : Nat) (x y z : Int) (i j : Int)
    (acc : SmoothAcc) : SmoothAcc :=
  if j < 0 ∨ toGuint j ≥ height ∨ (j = y ∧ i = x) then acc
  else
    let current : Int := (buffer (toGuint (j * width + i)) % 65536 : Nat)
    if current < z ∧ current ≥ z - 50 then
      { x := acc.x + x, y := acc.y + y, count := acc.count + 1 }
    else acc

/-- The body of the outer loop of `smooth_point` (lines 602-617) for column
`i`: rows `y - 16, y - 14, ..., y + 14`. -/
def smooth_column (buffer : Nat → Nat) (width height : Nat) (x y z : Int) (i : Int)
    (acc : SmoothAcc) : SmoothAcc :=
  if i < 0 ∨ toGuint i ≥ width then acc
  else
    (List.range 16).foldl
      (fun a b => smooth_cell buffer width height x y z i (y - 16 + 2 * (b : Int)) a) acc

/-- The function `smooth_point`, as the contents of the point it returns
(`none` is `NULL`). The depth buffer is read as a function from index to
sample; a sample is a `guint16`. -/
def smooth_point (buffer : Nat → Nat) (width height : Nat) (joint : Option SkeltrackJoint) :
    Option Point :=
  match joint with
  | none => none
  | some jt =>
    let x := jt.screen_x
    let y := jt.screen_y
    if toGuint x ≥ width ∨ toGuint y ≥ height then none
    else
      let acc := (List.range 16).foldl
        (fun a b => smooth_column buffer width height x y jt.z (x - 16 + 2 * (b : Int)) a)
        { x := x, y := y, count := 1 }
      some { x := Int.tdiv acc.x acc.count, y := Int.tdiv acc.y acc.count, z := jt.z }

/-- The allocation `g_slice_new0 (Point)` inside `smooth_point`: a returned
point lives at the next unused address. -/
def alloc_point (p : Option Point) (s : State) : Option PointRef × State :=
  match p with
  | none => (none, s)
  | some pt => (some { addr := s.heap_next, pt := pt }, { s with heap_next := s.heap_next + 1 })

/-! ## interpret_guestures (lines 292-448) -/

/-- One depth frame as `interpret_guestures` sees it: the raw buffer with its
dimensions, and the reading of `g_get_real_time ()` (microseconds) taken
while the frame is processed. -/
structure Frame where
  buffer : Nat → Nat
  width : Nat
  height : Nat
  time : Int

/-- The stabilized points of one frame: `left_point`, `right_point` and
`single_point` after lines 315-333. -/
structure HandPoints where
  left_point : Option PointRef
  right_point : Option PointRef
  single_point : Option PointRef
  deriving DecidableEq, Repr

/-- Lines 315-333 of `interpret_guestures`: which hands are active and their
stabilized points. -/
def hand_points (f : Frame) (head : SkeltrackJoint)
    (left_hand right_hand : Option SkeltrackJoint) (s : State) : HandPoints × State :=
  if hand_is_active head left_hand then
    let (left_point, s1) := alloc_point (smooth_point f.buffer f.width f.height left_hand) s
    if hand_is_active head right_hand then
      let (right_point, s2) :=
        alloc_point (smooth_point f.buffer f.width f.height right_hand) s1
      ({ left_point := left_point, right_point := right_point, single_point := none }, s2)
    else
      ({ left_point := left_point, right_point := none, single_point := left_point }, s1)
  else if hand_is_active head right_hand then
    let (right_point, s1) := alloc_point (smooth_point f.buffer f.width f.height right_hand) s
    ({ left_point := none, right_point := right_point, single_point := right_point }, s1)
  else
    ({ left_point := none, right_point := none, single_point := none }, s)

/-- Lines 337-371 of `interpret_guestures`: the branch `if (single_point)`. -/
def single_hand (time : Int) (single_point : PointRef) (s : State) : State × List XEvent :=
  let (s1, ev1) : State × List XEvent :=
    if s.last_key ≠ 0 then ({ s with last_key := 0 }, key_up s.last_key) else (s, [])
  let (s2, ev2) : State × List XEvent :=
    if s1.pointer_1_event_type = CLUTTER_SCROLL then
      ({ s1 with pointer_1_event_type := CLUTTER_NOTHING }, [])
    else if s1.pointer_2_event_type = CLUTTER_BUTTON_PRESS then
      (s1, mouse_up 1)
    else if s1.pointer_2_event_type = CLUTTER_ENTER then
      ({ s1 with pointer_2_event_type := CLUTTER_NOTHING }, mouse_click 1)
    else (s1, [])
  let (s3, ev3) : State × List XEvent :=
    if s2.pointer_1_event_type = CLUTTER_NOTHING then
      ({ s2 with pointer_enter_time := time, pointer_1_event_type := CLUTTER_ENTER }, [])
    else if s2.pointer_1_event_type = CLUTTER_MOTION ∨
        (s2.pointer_1_event_type = CLUTTER_ENTER ∧
          time - s2.pointer_enter_time > ((GESTURE_TIMEOUT * 1000 : Nat) : Int)) then
      ({ s2 with pointer_1_event_type := CLUTTER_MOTION,
                 pointer_2_event_type := CLUTTER_NOTHING,
                 pointer_1 := some single_point },
        set_mouse_pointer single_point.pt.x single_point.pt.y)
    else (s2, [])
  (s3, ev1 ++ ev2 ++ ev3)

/-- Lines 376-408 of `interpret_guestures`: both hands have a point and
`pointer_1_event_type == CLUTTER_MOTION`. -/
def second_hand_entered (time : Int) (left_point right_point : PointRef) (s : State) :
    State × List XEvent :=
  let (s1, ev1) : State × List XEvent :=
    if s.pointer_2_event_type = CLUTTER_NOTHING then
      ({ s with pointer_enter_time := time, pointer_2_event_type := CLUTTER_ENTER }, [])
    else if s.pointer_2_event_type = CLUTTER_ENTER ∧
        time - s.pointer_enter_time > ((GESTURE_TIMEOUT * 1000 : Nat) : Int) then
      ({ s with pointer_2_event_type := CLUTTER_BUTTON_PRESS }, mouse_down 1)
    else (s, [])
  let point : Option PointRef :=
    if ptr_eq s1.pointer_1 s1.last_left_point then some left_point
    else if ptr_eq s1.pointer_1 s1.last_right_point then some right_point
    else none
  let s2 : State := { s1 with pointer_1 := point }
  match point with
  | some p => (s2, ev1 ++ set_mouse_pointer p.pt.x p.pt.y)
  | none => (s2, ev1)

/-- Lines 411-430 of `interpret_guestures`: both hands have a point and
`pointer_1_event_type` is not `CLUTTER_MOTION`. -/
def both_hands_entered (env : Env) (left_point right_point : PointRef) (s : State) :
    State × List XEvent :=
  let s1 : State :=
    { s with pointer_1 := some left_point, pointer_2 := some right_point,
             pointer_1_event_type := CLUTTER_SCROLL,
             pointer_2_event_type := CLUTTER_SCROLL }
  if s1.last_left_point ≠ none ∧ s1.last_right_point ≠ none then
    if env.DOUBLE_HAND_WHEEL_MODE then
      interpret_wheel_gesture env left_point.pt right_point.pt s1
    else
      interpret_pinch_gesture env left_point.pt right_point.pt s1
  else (s1, [])

/-- Lines 335-436 of `interpret_guestures`: the dispatch on the stabilized
points of the frame. -/
def dispatch (env : Env) (time : Int) (hp : HandPoints) (s : State) : State × List XEvent :=
  match hp.single_point with
  | some sp => single_hand time sp s
  | none =>
    match hp.left_point, hp.right_point with
    | some l, some r =>
      if s.pointer_1_event_type = CLUTTER_MOTION then second_hand_entered time l r s
      else both_hands_entered env l r s
    | _, _ =>
      if s.last_right_point ≠ none ∨ s.last_left_point ≠ none then both_hands_left env s
      else (s, [])

/-- The function `interpret_guestures`. -/
def interpret_guestures (env : Env) (joint_list : Option SkeltrackJointList) (f : Frame)
    (s : State) : State × List XEvent :=
  match joint_list with
  | none => (s, [])
  | some jl =>
    match jl.head with
    | none => (s, [])
    | some head =>
      let (hp, s0) := hand_points f head jl.left_hand jl.right_hand s
      let (s1, ev) := dispatch env f.time hp s0
      ({ s1 with last_left_point := hp.left_point, last_right_point := hp.right_point }, ev)

/-! ## on_track_joints (lines 450-484) -/

/-- What `skeltrack_skeleton_track_joints_finish` hands back: an error, or a
joint list that may be `NULL`. -/
inductive TrackResult where
  | error
  | ok (list : Option SkeltrackJointList)
  deriving DecidableEq, Repr

/-- The function `on_track_joints`, as far as the gesture state is concerned:
`interpret_guestures` runs only when the tracker reported no error. -/
def on_track_joints (env : Env) (res : TrackResult) (f : Frame) (s : State) :
    State × List XEvent :=
  match res with
  | TrackResult.ok list => interpret_guestures env list f s
  | TrackResult.error => (s, [])

/-- Processing a sequence of frames in arrival order: the final state and all
events emitted, in order. -/
def run (env : Env) (s : State) : List (TrackResult × Frame) → State × List XEvent
  | [] => (s, [])
  | (res, f) :: rest =>
    let (s1, ev1) := on_track_joints env res f s
    let (s2, ev2) := run env s1 rest
    (s2, ev1 ++ ev2)

/-- Whether the key or button `(is_key, code)` is logically down after the
events `evs`, given whether it was down before: its last event, if any,
decides. -/
def is_down (is_key : Bool) (code : Nat) (before : Bool) : List XEvent → Bool
  | [] => before
  | XEvent.Key k p :: rest =>
    is_down is_key code (if is_key ∧ k = code then p else before) rest
  | XEvent.Button b p :: rest =>
    is_down is_key code (if ¬ is_key ∧ b = code then p else before) rest
  | XEvent.Motion _ _ :: rest => is_down is_key code before rest


/-! ## Predicates on inputs and states -/

/-- The value is representable as a `gint`. -/
def is_gint (v : Int) : Prop := -2147483648 ≤ v ∧ v < 2147483648

/-- The joint list has a head joint and no active hand (a NoHands frame). -/
def no_hands (jl : SkeltrackJointList) : Prop :=
  ∃ head, jl.head = some head ∧ hand_is_active head jl.left_hand = false
    ∧ hand_is_active head jl.right_hand = false

/-- The joint passes the bounds check of `smooth_point` (line 588) for the
buffer of the frame. -/
def in_bounds (f : Frame) (jt : SkeltrackJoint) : Prop :=
  toGuint jt.screen_x < f.width ∧ toGuint jt.screen_y < f.height

/-- The joint list has a head joint and both hands are active and in bounds. -/
def both_hands (f : Frame) (jl : SkeltrackJointList) : Prop :=
  ∃ head lh rh, jl.head = some head ∧ jl.left_hand = some lh ∧ jl.right_hand = some rh
    ∧ hand_is_active head (some lh) = true ∧ hand_is_active head (some rh) = true
    ∧ in_bounds f lh ∧ in_bounds f rh

/-- The states the program can be in: the initial state, and every state
that `on_track_joints` produces from a reachable one. -/
inductive Reachable (env : Env) : State → Prop where
  | init : Reachable env State.init
  | step {s : State} (res : TrackResult) (f : Frame) :
      Reachable env s → Reachable env (on_track_joints env res f s).1

/-- Both slots are idle whenever no point of the previous frame is retained. -/
def idle_without_last (s : State) : Prop :=
  s.last_left_point = none → s.last_right_point = none →
    s.pointer_1_event_type = CLUTTER_NOTHING ∧ s.pointer_2_event_type = CLUTTER_NOTHING

/-! ## Concrete inputs used by the examples -/

/-- A keyboard mapping with four distinct key codes, in steering-wheel mode. -/
def demo_env : Env :=
  { keys := { XK_Right := 114, XK_Left := 113, XK_Up := 111, XK_Control_L := 37 },
    DOUBLE_HAND_WHEEL_MODE := true }

/-- A 640 x 480 frame without depth samples, processed at time `t`. -/
def demo_frame (t : Int) : Frame :=
  { buffer := fun _ => 0, width := 640, height := 480, time := t }

/-- A head joint at depth 1000. -/
def demo_head : SkeltrackJoint := { screen_x := 320, screen_y := 50, z := 1000 }

/-- A joint list whose two hands are active (depth 600 against a head at
1000) and in bounds, the left hand at height `ly`, the right one at `ry`. -/
def demo_two_hands (ly ry : Int) : SkeltrackJointList :=
  { head := some demo_head,
    left_hand := some { screen_x := 100, screen_y := ly, z := 600 },
    right_hand := some { screen_x := 400, screen_y := ry, z := 600 } }

/-- A joint list with a head and no hand joint. -/
def demo_no_hands : SkeltrackJointList :=
  { head := some demo_head, left_hand := none, right_hand := none }

/-- A state whose Pinch baseline is 100. -/
def demo_pinch_state : State := { State.init with old_distance := 100 }

/-! ## Point stabilizer and preprocessor: predicates and the preprocessor -/

/-- The depth sample that `smooth_point` reads for column `i`, row `j`
(line 610). -/
def depth_at (buffer : Nat → Nat) (width : Nat) (i j : Int) : Int :=
  (buffer (toGuint (j * width + i)) % 65536 : Nat)

/-- No sampled neighbour of `(x, y)` (stride 2, half-width 16, inside the
buffer, centre excluded) has a depth in `[z - 50, z)`. -/
def no_close_neighbour (buffer : Nat → Nat) (width height : Nat) (x y z : Int) : Prop :=
  ∀ a b : Nat, a < 16 → b < 16 →
    0 ≤ x - 16 + 2 * (a : Int) → x - 16 + 2 * (a : Int) < width →
    0 ≤ y - 16 + 2 * (b : Int) → y - 16 + 2 * (b : Int) < height →
    ¬ (x - 16 + 2 * (a : Int) = x ∧ y - 16 + 2 * (b : Int) = y) →
    ¬ (z - 50 ≤ depth_at buffer width (x - 16 + 2 * (a : Int)) (y - 16 + 2 * (b : Int))
        ∧ depth_at buffer width (x - 16 + 2 * (a : Int)) (y - 16 + 2 * (b : Int)) < z)

/-- The `BufferInfo` record of main.c (lines 80-88). The reduced buffer is the
list of its `reduced_width * reduced_height` cells. -/
structure BufferInfo where
  reduced_buffer : List Nat
  original_buffer : Nat → Nat
  width : Nat
  height : Nat
  reduced_width : Nat
  reduced_height : Nat

/-- The body of the inner loop of `process_buffer` (lines 518-530) for
column `i`, row `j` of the reduced buffer. -/
def process_cell (buffer : Nat → Nat) (width dimension_factor threshold_begin threshold_end
    reduced_width : Nat) (i j : Nat) (reduced_buffer : List Nat) : List Nat :=
  let index := (j * width * dimension_factor + i * dimension_factor) % 4294967296
  let value := buffer index % 65536
  if value < threshold_begin ∨ value > threshold_end then
    reduced_buffer.set (j * reduced_width + i) 0
  else
    reduced_buffer.set (j * reduced_width + i) value

/-- The function `process_buffer`. The reduced buffer starts zero-filled
(`g_slice_alloc0`) and is written cell by cell, column after column. -/
def process_buffer (buffer : Nat → Nat) (width height dimension_factor threshold_begin
    threshold_end : Nat) : BufferInfo :=
  let reduced_width := (width - width % dimension_factor) / dimension_factor
  let reduced_height := (height - height % dimension_factor) / dimension_factor
  let reduced_buffer :=
    (List.range reduced_width).foldl
      (fun acc i =>
        (List.range reduced_height).foldl
          (fun acc2 j =>
            process_cell buffer width dimension_factor threshold_begin threshold_end
              reduced_width i j acc2)
          acc)
      (List.replicate (reduced_width * reduced_height) 0)
  { reduced_buffer := reduced_buffer,
    original_buffer := buffer,
    reduced_width := reduced_width,
    reduced_height := reduced_height,
    width := width,
    height := height }

/-- The raw depth sample at column `c`, row `r` of a frame `width` wide. -/
def raw_sample (buffer : Nat → Nat) (width : Nat) (c r : Nat) : Nat :=
  buffer (r * width + c) % 65536


/-- What the preprocessor keeps of the raw sample at column `i * k`, row
`j * k`: the sample when it lies in `[threshold_begin, threshold_end]`, else 0. -/
def kept_sample (buffer : Nat → Nat) (width k threshold_begin threshold_end : Nat)
    (i j : Nat) : Nat :=
  if threshold_begin ≤ raw_sample buffer width (i * k) (j * k)
      ∧ raw_sample buffer width (i * k) (j * k) ≤ threshold_end then
    raw_sample buffer width (i * k) (j * k)
  else 0

/-! ## Frame kinds and run invariants -/

/-- The joint list has a head joint and yields a single point: one hand is
active and in bounds and the other hand is not active. -/
def single_hand_frame (f : Frame) (jl : SkeltrackJointList) : Prop :=
  ∃ head hand, jl.head = some head ∧ in_bounds f hand
    ∧ ((jl.left_hand = some hand ∧ hand_is_active head (some hand) = true
          ∧ hand_is_active head jl.right_hand = false)
        ∨ (jl.right_hand = some hand ∧ hand_is_active head jl.left_hand = false
          ∧ hand_is_active head (some hand) = true))

/-- The state of a run of single-hand frames that started at time `t0` from
the idle state, after a frame processed at time `tl`: slot 1 is Entering
while the timeout has not elapsed and Active afterwards. -/
def debouncing (t0 tl : Int) (s : State) : Prop :=
  s.pointer_enter_time = t0 ∧ s.pointer_2_event_type = CLUTTER_NOTHING ∧ s.last_key = 0
    ∧ ((s.pointer_1_event_type = CLUTTER_ENTER ∧ tl - t0 ≤ 300000)
        ∨ (s.pointer_1_event_type = CLUTTER_MOTION ∧ tl - t0 > 300000))

/-- The button events among the events of a frame, in order. -/
def button_events (evs : List XEvent) : List XEvent :=
  evs.filter (fun e => match e with
    | XEvent.Button _ _ => true
    | _ => false)

/-- A joint list whose left hand alone is present, active and in bounds. -/
def demo_one_hand : SkeltrackJointList :=
  { head := some demo_head,
    left_hand := some { screen_x := 100, screen_y := 100, z := 600 },
    right_hand := none }


/-! ## Slot invariant -/

/-- The invariant of the two slots: slot 2 is Entering or Pressed only while
slot 1 is Active; a key is recorded only while slot 1 is Scrolling; while
slot 1 is Active its point is the retained left or right point; the retained
left and right points are distinct allocations. -/
def slot_invariant (s : State) : Prop :=
  ((s.pointer_2_event_type = CLUTTER_ENTER ∨ s.pointer_2_event_type = CLUTTER_BUTTON_PRESS) →
      s.pointer_1_event_type = CLUTTER_MOTION)
  ∧ (s.last_key ≠ 0 → s.pointer_1_event_type = CLUTTER_SCROLL)
  ∧ (s.pointer_1_event_type = CLUTTER_MOTION →
      ∃ P, s.pointer_1 = some P ∧ (s.last_left_point = some P ∨ s.last_right_point = some P))
  ∧ (∀ L R, s.last_left_point = some L → s.last_right_point = some R → L.addr ≠ R.addr)

/-- A joint list without head joint whose two hands are present. -/
def demo_headless : SkeltrackJointList :=
  { head := none,
    left_hand := some { screen_x := 100, screen_y := 100, z := 600 },
    right_hand := some { screen_x := 400, screen_y := 200, z := 600 } }

/-! ## Arithmetic lemmas -/

set_option maxRecDepth 100000

theorem ABS_eq_abs (a : Int) : ABS a = |a| := by
  unfold ABS
  split
  · rename_i h; rw [abs_of_neg h]
  · rename_i h; rw [abs_of_nonneg (not_lt.mp h)]

theorem ABS_mul_self (v : Int) : ABS v * ABS v = v * v := by
  unfold ABS
  split <;> ring

theorem get_distance_nonneg (a b : Point) : 0 ≤ get_distance a b := by
  unfold get_distance
  exact Int.ofNat_nonneg _

theorem sq_sum_nonneg (a b : Point) :
    0 ≤ (a.x - b.x) * (a.x - b.x) + (a.y - b.y) * (a.y - b.y) := by
  nlinarith [mul_self_nonneg (a.x - b.x), mul_self_nonneg (a.y - b.y)]

/-- The value of `get_distance` is the integer part of the Euclidean distance. -/
theorem get_distance_spec (a b : Point) :
    get_distance a b * get_distance a b
        ≤ (a.x - b.x) * (a.x - b.x) + (a.y - b.y) * (a.y - b.y)
    ∧ (a.x - b.x) * (a.x - b.x) + (a.y - b.y) * (a.y - b.y)
        < (get_distance a b + 1) * (get_distance a b + 1) := by
  have h0 := sq_sum_nonneg a b
  unfold get_distance
  simp only [ABS_mul_self]
  set n := ((a.x - b.x) * (a.x - b.x) + (a.y - b.y) * (a.y - b.y)).toNat with hn
  have hcast : ((n : Nat) : Int) = (a.x - b.x) * (a.x - b.x) + (a.y - b.y) * (a.y - b.y) :=
    Int.toNat_of_nonneg h0
  rw [← hcast]
  constructor
  · exact_mod_cast Nat.sqrt_le n
  · exact_mod_cast Nat.lt_succ_sqrt n

/-- A value pinned between two consecutive squares is the root. -/
theorem get_distance_eq (a b : Point) (d : Int) (hd : 0 ≤ d)
    (h1 : d * d ≤ (a.x - b.x) * (a.x - b.x) + (a.y - b.y) * (a.y - b.y))
    (h2 : (a.x - b.x) * (a.x - b.x) + (a.y - b.y) * (a.y - b.y) < (d + 1) * (d + 1)) :
    get_distance a b = d := by
  have h := get_distance_spec a b
  have h0 := get_distance_nonneg a b
  nlinarith [h.1, h.2]


/-! ## Lemmas on the frame pipeline -/

theorem alloc_point_state (p : Option Point) (s : State) :
    (alloc_point p s).2 = { s with heap_next := (alloc_point p s).2.heap_next } := by
  cases p <;> rfl

theorem hand_points_state (f : Frame) (head : SkeltrackJoint)
    (lh rh : Option SkeltrackJoint) (s : State) :
    (hand_points f head lh rh s).2
      = { s with heap_next := (hand_points f head lh rh s).2.heap_next } := by
  unfold hand_points
  cases hand_is_active head lh <;> cases hand_is_active head rh <;>
    cases smooth_point f.buffer f.width f.height lh <;>
    cases smooth_point f.buffer f.width f.height rh <;> rfl

theorem hand_points_single_none (f : Frame) (head : SkeltrackJoint)
    (lh rh : Option SkeltrackJoint) (s : State)
    (hl : (hand_points f head lh rh s).1.left_point = none)
    (hr : (hand_points f head lh rh s).1.right_point = none) :
    (hand_points f head lh rh s).1.single_point = none := by
  unfold hand_points at hl hr ⊢
  cases h1 : hand_is_active head lh <;> cases h2 : hand_is_active head rh <;>
    simp_all

theorem hand_points_inactive (f : Frame) (head : SkeltrackJoint)
    (lh rh : Option SkeltrackJoint) (s : State)
    (hl : hand_is_active head lh = false) (hr : hand_is_active head rh = false) :
    hand_points f head lh rh s
      = ({ left_point := none, right_point := none, single_point := none }, s) := by
  unfold hand_points
  simp [hl, hr]

theorem smooth_point_in_bounds (f : Frame) (jt : SkeltrackJoint) (h : in_bounds f jt) :
    ∃ p, smooth_point f.buffer f.width f.height (some jt) = some p := by
  unfold in_bounds at h
  unfold smooth_point
  have hb : ¬ (toGuint jt.screen_x ≥ f.width ∨ toGuint jt.screen_y ≥ f.height) := by omega
  simp only [hb, if_false]
  exact ⟨_, rfl⟩

theorem hand_points_both (f : Frame) (head lh rh : SkeltrackJoint) (s : State) (l r : Point)
    (hal : hand_is_active head (some lh) = true) (har : hand_is_active head (some rh) = true)
    (hl : smooth_point f.buffer f.width f.height (some lh) = some l)
    (hr : smooth_point f.buffer f.width f.height (some rh) = some r) :
    hand_points f head (some lh) (some rh) s
      = ({ left_point := some { addr := s.heap_next, pt := l },
           right_point := some { addr := s.heap_next + 1, pt := r },
           single_point := none },
         { s with heap_next := s.heap_next + 2 }) := by
  unfold hand_points
  simp [hal, har, hl, hr, alloc_point]

theorem dispatch_none (env : Env) (t : Int) (s : State) :
    dispatch env t { left_point := none, right_point := none, single_point := none } s
      = if s.last_right_point ≠ none ∨ s.last_left_point ≠ none then both_hands_left env s
        else (s, []) := rfl

theorem dispatch_both (env : Env) (t : Int) (L R : PointRef) (s : State) :
    dispatch env t { left_point := some L, right_point := some R, single_point := none } s
      = if s.pointer_1_event_type = CLUTTER_MOTION then second_hand_entered t L R s
        else both_hands_entered env L R s := rfl

/-- A NoHands frame runs `both_hands_left` when a point of the previous frame
is retained, and does nothing otherwise; no point is retained afterwards. -/
theorem interpret_guestures_no_hands (env : Env) (jl : SkeltrackJointList) (f : Frame)
    (s : State) (h : no_hands jl) :
    interpret_guestures env (some jl) f s
      = if s.last_right_point ≠ none ∨ s.last_left_point ≠ none then
          ({ (both_hands_left env s).1 with last_left_point := none, last_right_point := none },
            (both_hands_left env s).2)
        else (s, []) := by
  obtain ⟨head, hh, hl, hr⟩ := h
  unfold interpret_guestures
  simp only [hh, hand_points_inactive f head _ _ s hl hr, dispatch_none]
  by_cases hc : s.last_right_point ≠ none ∨ s.last_left_point ≠ none
  · rw [if_pos hc, if_pos hc]
  · rw [if_neg hc, if_neg hc]
    simp only [not_or, not_not, ne_eq] at hc
    cases s
    simp_all

/-- A frame with both hands active and in bounds allocates the two stabilized
points and dispatches on them. -/
theorem interpret_guestures_both_hands (env : Env) (jl : SkeltrackJointList) (f : Frame)
    (s : State) (h : both_hands f jl) :
    ∃ l r, smooth_point f.buffer f.width f.height jl.left_hand = some l
      ∧ smooth_point f.buffer f.width f.height jl.right_hand = some r
      ∧ interpret_guestures env (some jl) f s
        = ({ (dispatch env f.time
                { left_point := some { addr := s.heap_next, pt := l },
                  right_point := some { addr := s.heap_next + 1, pt := r },
                  single_point := none }
                { s with heap_next := s.heap_next + 2 }).1 with
              last_left_point := some { addr := s.heap_next, pt := l },
              last_right_point := some { addr := s.heap_next + 1, pt := r } },
           (dispatch env f.time
                { left_point := some { addr := s.heap_next, pt := l },
                  right_point := some { addr := s.heap_next + 1, pt := r },
                  single_point := none }
                { s with heap_next := s.heap_next + 2 }).2) := by
  obtain ⟨head, lh, rh, hh, hlh, hrh, hal, har, hbl, hbr⟩ := h
  obtain ⟨l, hl⟩ := smooth_point_in_bounds f lh hbl
  obtain ⟨r, hr⟩ := smooth_point_in_bounds f rh hbr
  refine ⟨l, r, by rw [hlh, hl], by rw [hrh, hr], ?_⟩
  unfold interpret_guestures
  simp only [hh, hlh, hrh, hand_points_both f head lh rh s l r hal har hl hr]

theorem both_hands_left_types (env : Env) (s : State) :
    (both_hands_left env s).1.pointer_1_event_type = CLUTTER_NOTHING
    ∧ (both_hands_left env s).1.pointer_2_event_type = CLUTTER_NOTHING := by
  unfold both_hands_left
  by_cases h : s.last_key = 0 <;> simp [h]

theorem interpret_guestures_idle_without_last (env : Env) (jl : Option SkeltrackJointList)
    (f : Frame) (s : State) (h : idle_without_last s) :
    idle_without_last (interpret_guestures env jl f s).1 := by
  unfold interpret_guestures
  cases jl with
  | none => exact h
  | some jl =>
    cases hh : jl.head with
    | none => simpa [hh] using h
    | some head =>
      simp only [hh]
      intro hl hr
      simp only at hl hr
      have hs := hand_points_single_none f head jl.left_hand jl.right_hand s hl hr
      have hst := hand_points_state f head jl.left_hand jl.right_hand s
      generalize hand_points f head jl.left_hand jl.right_hand s = hp at hl hr hs hst ⊢
      obtain ⟨hp, s0⟩ := hp
      simp only at hl hr hs hst ⊢
      unfold dispatch
      simp only [hs, hl, hr]
      by_cases hc : s0.last_right_point ≠ none ∨ s0.last_left_point ≠ none
      · simp only [if_pos hc]
        exact both_hands_left_types env s0
      · simp only [if_neg hc]
        simp only [not_or, not_not, ne_eq] at hc
        rw [hst] at hc ⊢
        exact h hc.2 hc.1

/-- In every reachable state that retains no point of the previous frame,
both slots are idle. -/
theorem reachable_idle_without_last (env : Env) (s : State) (h : Reachable env s) :
    idle_without_last s := by
  induction h with
  | init => intro _ _; exact ⟨rfl, rfl⟩
  | step res f _ ih =>
    cases res with
    | error => exact ih
    | ok list => exact interpret_guestures_idle_without_last env list f _ ih

/-- Whatever the points and the state, `interpret_wheel_gesture` stores the
key code of `XK_Up` in `last_key`. -/
theorem interpret_wheel_gesture_last_key (env : Env) (p1 p2 : Point) (s : State) :
    (interpret_wheel_gesture env p1 p2 s).1.last_key = env.keys.XK_Up := by
  simp [interpret_wheel_gesture]


/-! ## Hands leaving and the steering-wheel keys -/

/-- C1, evaluated in steering-wheel mode. Two frames with both hands active
(left hand higher by 100) leave the turn-right key (114) logically down; the
following frame with a head and no active hand emits no release of that key,
and the key is still down after it. -/
theorem hands_left_keeps_turn_key_down :
    is_down true 114 false
        (run demo_env State.init
          [(TrackResult.ok (some (demo_two_hands 100 200)), demo_frame 0),
           (TrackResult.ok (some (demo_two_hands 100 200)), demo_frame 1)]).2 = true
    ∧ (interpret_guestures demo_env (some demo_no_hands) (demo_frame 2)
          (run demo_env State.init
            [(TrackResult.ok (some (demo_two_hands 100 200)), demo_frame 0),
             (TrackResult.ok (some (demo_two_hands 100 200)), demo_frame 1)]).1).2
        = [XEvent.Button 1 false, XEvent.Key 111 false, XEvent.Key 111 false]
    ∧ XEvent.Key 114 false ∉
        (interpret_guestures demo_env (some demo_no_hands) (demo_frame 2)
          (run demo_env State.init
            [(TrackResult.ok (some (demo_two_hands 100 200)), demo_frame 0),
             (TrackResult.ok (some (demo_two_hands 100 200)), demo_frame 1)]).1).2
    ∧ is_down true 114 false
        (run demo_env State.init
          [(TrackResult.ok (some (demo_two_hands 100 200)), demo_frame 0),
           (TrackResult.ok (some (demo_two_hands 100 200)), demo_frame 1),
           (TrackResult.ok (some demo_no_hands), demo_frame 2)]).2 = true := by
  decide

/-- C2, evaluated on two consecutive calls of `interpret_wheel_gesture`, the
first with `left.y < right.y`, the second with `left.y > right.y`, both 100
apart. The second call releases the accelerate key (111) and not the
turn-right key (114) pressed by the first call, so that afterwards turn-right
and turn-left (113) are both logically down. -/
theorem wheel_swap_keeps_old_turn_key_down :
    (interpret_wheel_gesture demo_env ⟨100, 100, 600⟩ ⟨400, 200, 600⟩ State.init).2
      = [XEvent.Key 114 true, XEvent.Key 111 true]
    ∧ (interpret_wheel_gesture demo_env ⟨100, 200, 600⟩ ⟨400, 100, 600⟩
        (interpret_wheel_gesture demo_env ⟨100, 100, 600⟩ ⟨400, 200, 600⟩ State.init).1).2
      = [XEvent.Key 111 false, XEvent.Key 113 true, XEvent.Key 111 true]
    ∧ is_down true 114 false
        ((interpret_wheel_gesture demo_env ⟨100, 100, 600⟩ ⟨400, 200, 600⟩ State.init).2
          ++ (interpret_wheel_gesture demo_env ⟨100, 200, 600⟩ ⟨400, 100, 600⟩
              (interpret_wheel_gesture demo_env ⟨100, 100, 600⟩ ⟨400, 200, 600⟩
                State.init).1).2) = true
    ∧ is_down true 113 false
        ((interpret_wheel_gesture demo_env ⟨100, 100, 600⟩ ⟨400, 200, 600⟩ State.init).2
          ++ (interpret_wheel_gesture demo_env ⟨100, 200, 600⟩ ⟨400, 100, 600⟩
              (interpret_wheel_gesture demo_env ⟨100, 100, 600⟩ ⟨400, 200, 600⟩
                State.init).1).2) = true := by
  decide

/-- C3, evaluated on one call of `interpret_wheel_gesture` with
`left.y < right.y`: the directional key chosen is turn-right (114), and the
key code left in `last_key` is that of the accelerate key (111). -/
theorem wheel_last_key_is_accelerate_key :
    wheel_keycode demo_env ⟨100, 100, 600⟩ ⟨400, 200, 600⟩ = 114
    ∧ (interpret_wheel_gesture demo_env ⟨100, 100, 600⟩ ⟨400, 200, 600⟩
        State.init).1.last_key = 111 := by
  decide

/-- C4. For every pair of points (with `gint` heights),
`interpret_wheel_gesture` emits, after the release of a differing recorded
key if there is one, an event of the chosen directional key (turn-right if
`left.y < right.y`, turn-left otherwise) that is a press exactly when
`|left.y - right.y| >= 35` and a release otherwise, followed by a press of the
accelerate key. -/
theorem interpret_wheel_gesture_events (env : Env) (left right : Point) (s : State)
    (hl : is_gint left.y) (hr : is_gint right.y) :
    (interpret_wheel_gesture env left right s).2
      = (if s.last_key ≠ 0
              ∧ (if left.y < right.y then env.keys.XK_Right else env.keys.XK_Left) ≠ s.last_key
          then [XEvent.Key s.last_key false] else [])
        ++ [XEvent.Key (if left.y < right.y then env.keys.XK_Right else env.keys.XK_Left)
              (decide (35 ≤ |left.y - right.y|)),
            XEvent.Key env.keys.XK_Up true] := by
  have hdiv : toGuint (ABS (left.y - right.y)) / WHEEL_TURN_ACTIVATE_DISTANCE ≠ 0
      ↔ 35 ≤ |left.y - right.y| := by
    rw [← ABS_eq_abs]
    unfold is_gint at hl hr
    unfold toGuint ABS WHEEL_TURN_ACTIVATE_DISTANCE
    split <;> omega
  unfold interpret_wheel_gesture
  by_cases h : 35 ≤ |left.y - right.y|
  · simp [hdiv.mpr h, h, wheel_keycode, key_up, key_down]
  · have h2 : ¬ (toGuint (ABS (left.y - right.y)) / WHEEL_TURN_ACTIVATE_DISTANCE ≠ 0) :=
      fun hh => h (hdiv.mp hh)
    simp only [h2]
    simp [h, wheel_keycode, key_up, key_down]

/-- Witness of C4: left hand higher by 100 from the initial state presses
turn-right and accelerate; heights 34 apart release turn-right instead. -/
theorem interpret_wheel_gesture_events_witness :
    is_gint 100 ∧ is_gint 200 ∧ is_gint 134
    ∧ (interpret_wheel_gesture demo_env ⟨100, 100, 600⟩ ⟨400, 200, 600⟩ State.init).2
        = [XEvent.Key 114 true, XEvent.Key 111 true]
    ∧ (interpret_wheel_gesture demo_env ⟨100, 100, 600⟩ ⟨400, 134, 600⟩ State.init).2
        = [XEvent.Key 114 false, XEvent.Key 111 true] := by
  have g1 : is_gint 100 := by unfold is_gint; decide
  have g2 : is_gint 200 := by unfold is_gint; decide
  have g3 : is_gint 134 := by unfold is_gint; decide
  refine ⟨g1, g2, g3, ?_, ?_⟩
  · rw [interpret_wheel_gesture_events demo_env ⟨100, 100, 600⟩ ⟨400, 200, 600⟩ State.init g1 g2]
    decide
  · rw [interpret_wheel_gesture_events demo_env ⟨100, 100, 600⟩ ⟨400, 134, 600⟩ State.init g1 g3]
    decide

/-! ## Pinch interpreter -/

/-- C5. With an uninitialized baseline (`old_distance = -1`),
`interpret_pinch_gesture` emits no event and only sets `old_distance`, to the
integer part `d` of the Euclidean distance of the two points:
`0 <= d` and `d^2 <= dx^2 + dy^2 < (d + 1)^2`. -/
theorem interpret_pinch_gesture_first_call (env : Env) (p1 p2 : Point) (s : State)
    (h : s.old_distance = -1) :
    interpret_pinch_gesture env p1 p2 s = ({ s with old_distance := get_distance p1 p2 }, [])
    ∧ 0 ≤ get_distance p1 p2
    ∧ get_distance p1 p2 * get_distance p1 p2
        ≤ (p1.x - p2.x) * (p1.x - p2.x) + (p1.y - p2.y) * (p1.y - p2.y)
    ∧ (p1.x - p2.x) * (p1.x - p2.x) + (p1.y - p2.y) * (p1.y - p2.y)
        < (get_distance p1 p2 + 1) * (get_distance p1 p2 + 1) := by
  refine ⟨?_, get_distance_nonneg p1 p2, get_distance_spec p1 p2⟩
  unfold interpret_pinch_gesture
  simp [h]

/-- Witness of C5: from the initial state, points `(0, 0)` and `(3, 4)` record
the baseline 5 and emit nothing. -/
theorem interpret_pinch_gesture_first_call_witness :
    State.init.old_distance = -1
    ∧ interpret_pinch_gesture demo_env ⟨0, 0, 600⟩ ⟨3, 4, 600⟩ State.init
        = ({ State.init with old_distance := 5 }, []) := by
  have h := interpret_pinch_gesture_first_call demo_env ⟨0, 0, 600⟩ ⟨3, 4, 600⟩ State.init rfl
  have e : get_distance ⟨0, 0, 600⟩ ⟨3, 4, 600⟩ = 5 :=
    get_distance_eq _ _ 5 (by decide) (by decide) (by decide)
  refine ⟨rfl, ?_⟩
  rw [h.1, e]

/-- C6. With an initialized baseline `b >= 0` and points at distance `d`
(both `gint` values): if `|b - d| > 75` the call emits exactly modifier
key-down, one click of button 4 when `d > b` or of button 5 when `d < b`,
modifier key-up, and sets the baseline to `d`; otherwise (`|b - d| <= 75`) it
emits nothing and changes nothing. A call repeated immediately on points at
the same distance emits nothing and changes nothing. -/
theorem interpret_pinch_gesture_initialized (env : Env) (p1 p2 q1 q2 : Point) (s : State)
    (hb0 : 0 ≤ s.old_distance) (hb1 : s.old_distance < 2147483648)
    (hd1 : get_distance p1 p2 < 2147483648)
    (hq : get_distance q1 q2 = get_distance p1 p2) :
    interpret_pinch_gesture env p1 p2 s
      = (if 75 < |s.old_distance - get_distance p1 p2| ∧ s.old_distance < get_distance p1 p2 then
          ({ s with old_distance := get_distance p1 p2 },
            [XEvent.Key env.keys.XK_Control_L true, XEvent.Button 4 true,
             XEvent.Button 4 false, XEvent.Key env.keys.XK_Control_L false])
        else if 75 < |s.old_distance - get_distance p1 p2|
            ∧ get_distance p1 p2 < s.old_distance then
          ({ s with old_distance := get_distance p1 p2 },
            [XEvent.Key env.keys.XK_Control_L true, XEvent.Button 5 true,
             XEvent.Button 5 false, XEvent.Key env.keys.XK_Control_L false])
        else (s, []))
    ∧ interpret_pinch_gesture env q1 q2 (interpret_pinch_gesture env p1 p2 s).1
        = ((interpret_pinch_gesture env p1 p2 s).1, []) := by
  have hd0 := get_distance_nonneg p1 p2
  have hne : s.old_distance ≠ -1 := by omega
  have hcmp : toGuint (ABS (s.old_distance - get_distance p1 p2)) > PINCH_ACTIVATE_DISTANCE
      ↔ 75 < |s.old_distance - get_distance p1 p2| := by
    rw [← ABS_eq_abs]
    unfold toGuint ABS PINCH_ACTIVATE_DISTANCE
    split <;> omega
  have hz : ¬ (toGuint (ABS (get_distance p1 p2 - get_distance q1 q2))
      > PINCH_ACTIVATE_DISTANCE) := by
    rw [hq]
    unfold toGuint ABS PINCH_ACTIVATE_DISTANCE
    split <;> omega
  have hne2 : get_distance p1 p2 ≠ -1 := by omega
  have hrepeat : interpret_pinch_gesture env q1 q2 { s with old_distance := get_distance p1 p2 }
      = ({ s with old_distance := get_distance p1 p2 }, []) := by
    unfold interpret_pinch_gesture
    simp only [hne2, if_false, hz]
  by_cases h : 75 < |s.old_distance - get_distance p1 p2|
  · have hfire := hcmp.mpr h
    by_cases hlt : s.old_distance < get_distance p1 p2
    · have e : interpret_pinch_gesture env p1 p2 s
          = ({ s with old_distance := get_distance p1 p2 },
              [XEvent.Key env.keys.XK_Control_L true, XEvent.Button 4 true,
               XEvent.Button 4 false, XEvent.Key env.keys.XK_Control_L false]) := by
        unfold interpret_pinch_gesture
        simp only [hne, if_false, hfire, if_true, hlt]
        simp [key_down, key_up, mouse_click]
      refine ⟨?_, ?_⟩
      · rw [e, if_pos ⟨h, hlt⟩]
      · rw [e]; exact hrepeat
    · have hgt : get_distance p1 p2 < s.old_distance := by
        rw [← ABS_eq_abs] at h
        unfold ABS at h
        split at h <;> omega
      have e : interpret_pinch_gesture env p1 p2 s
          = ({ s with old_distance := get_distance p1 p2 },
              [XEvent.Key env.keys.XK_Control_L true, XEvent.Button 5 true,
               XEvent.Button 5 false, XEvent.Key env.keys.XK_Control_L false]) := by
        unfold interpret_pinch_gesture
        simp only [hne, if_false, hfire, if_true, hlt]
        simp [key_down, key_up, mouse_click]
      refine ⟨?_, ?_⟩
      · rw [e, if_neg (fun hh => hlt hh.2), if_pos ⟨h, hgt⟩]
      · rw [e]; exact hrepeat
  · have h2 : ¬ (toGuint (ABS (s.old_distance - get_distance p1 p2))
        > PINCH_ACTIVATE_DISTANCE) := fun hh => h (hcmp.mp hh)
    have e : interpret_pinch_gesture env p1 p2 s = (s, []) := by
      unfold interpret_pinch_gesture
      simp only [hne, if_false, h2]
    refine ⟨?_, ?_⟩
    · rw [e, if_neg (fun hh => h hh.1), if_neg (fun hh => h hh.1)]
    · rw [e]
      have h3 : ¬ (toGuint (ABS (s.old_distance - get_distance q1 q2))
          > PINCH_ACTIVATE_DISTANCE) := by
        rw [hq]; exact h2
      unfold interpret_pinch_gesture
      simp only [hne, if_false, h3]

/-- Witness of C6: with baseline 100, points 176 apart (baseline + 76) fire one
scroll-up click between modifier key-down and key-up and move the baseline to
176; the same points again emit nothing. -/
theorem interpret_pinch_gesture_initialized_witness :
    0 ≤ demo_pinch_state.old_distance ∧ demo_pinch_state.old_distance < 2147483648
    ∧ get_distance ⟨0, 0, 600⟩ ⟨176, 0, 600⟩ = 176
    ∧ interpret_pinch_gesture demo_env ⟨0, 0, 600⟩ ⟨176, 0, 600⟩ demo_pinch_state
        = ({ demo_pinch_state with old_distance := 176 },
            [XEvent.Key 37 true, XEvent.Button 4 true, XEvent.Button 4 false,
             XEvent.Key 37 false])
    ∧ interpret_pinch_gesture demo_env ⟨0, 0, 600⟩ ⟨176, 0, 600⟩
          { demo_pinch_state with old_distance := 176 }
        = ({ demo_pinch_state with old_distance := 176 }, []) := by
  have e : get_distance ⟨0, 0, 600⟩ ⟨176, 0, 600⟩ = 176 :=
    get_distance_eq _ _ 176 (by decide) (by decide) (by decide)
  have hb0 : 0 ≤ demo_pinch_state.old_distance := by decide
  have hb1 : demo_pinch_state.old_distance < 2147483648 := by decide
  have h := interpret_pinch_gesture_initialized demo_env ⟨0, 0, 600⟩ ⟨176, 0, 600⟩
    ⟨0, 0, 600⟩ ⟨176, 0, 600⟩ demo_pinch_state hb0 hb1 (by rw [e]; decide) rfl
  rw [e] at h
  have h1 : interpret_pinch_gesture demo_env ⟨0, 0, 600⟩ ⟨176, 0, 600⟩ demo_pinch_state
      = ({ demo_pinch_state with old_distance := 176 },
          [XEvent.Key 37 true, XEvent.Button 4 true, XEvent.Button 4 false,
           XEvent.Key 37 false]) := by
    rw [h.1]
    decide
  refine ⟨hb0, hb1, e, h1, ?_⟩
  have h3 := h.2
  rw [h1] at h3
  exact h3


/-! ## Hands leaving: reset and idempotence -/

/-- C7. For every state, `both_hands_left` emits a release of mouse button 1
and, if `last_key` records a key, a release of that key (followed by a release
of the accelerate key); it leaves both slots idle with null points,
`old_distance = -1` and `last_key = 0`, whatever they were before, and changes
nothing else; applied a second time it leaves the state unchanged. -/
theorem both_hands_left_resets (env : Env) (s : State) :
    (both_hands_left env s).2
      = XEvent.Button 1 false
          :: (if s.last_key ≠ 0 then
                [XEvent.Key s.last_key false, XEvent.Key env.keys.XK_Up false]
              else [])
    ∧ (both_hands_left env s).1
      = { s with pointer_1_event_type := CLUTTER_NOTHING,
                 pointer_2_event_type := CLUTTER_NOTHING,
                 pointer_1 := none,
                 pointer_2 := none,
                 old_distance := -1,
                 last_key := 0 }
    ∧ (both_hands_left env (both_hands_left env s).1).1 = (both_hands_left env s).1 := by
  unfold both_hands_left
  by_cases h : s.last_key = 0
  · simp [h]
  · simp [h]

/-- C8. After one frame that has a head joint and no active hand, a second
such frame emits no event and leaves the whole persisted state unchanged. -/
theorem no_hands_twice_is_silent (env : Env) (jl1 jl2 : SkeltrackJointList)
    (f1 f2 : Frame) (s : State) (h1 : no_hands jl1) (h2 : no_hands jl2) :
    interpret_guestures env (some jl2) f2 (interpret_guestures env (some jl1) f1 s).1
      = ((interpret_guestures env (some jl1) f1 s).1, []) := by
  rw [interpret_guestures_no_hands env jl2 f2 _ h2, interpret_guestures_no_hands env jl1 f1 s h1]
  by_cases hc : s.last_right_point ≠ none ∨ s.last_left_point ≠ none
  · simp [hc]
  · rw [if_neg hc]
    exact if_neg hc

/-- Witness of C8: after a frame with both hands, a first NoHands frame
releases button 1 and a second NoHands frame emits nothing and changes
nothing. -/
theorem no_hands_twice_is_silent_witness :
    no_hands demo_no_hands
    ∧ (interpret_guestures demo_env (some demo_no_hands) (demo_frame 1)
        (interpret_guestures demo_env (some (demo_two_hands 100 200)) (demo_frame 0)
          State.init).1).2 = [XEvent.Button 1 false]
    ∧ interpret_guestures demo_env (some demo_no_hands) (demo_frame 2)
        (interpret_guestures demo_env (some demo_no_hands) (demo_frame 1)
          (interpret_guestures demo_env (some (demo_two_hands 100 200)) (demo_frame 0)
            State.init).1).1
      = ((interpret_guestures demo_env (some demo_no_hands) (demo_frame 1)
          (interpret_guestures demo_env (some (demo_two_hands 100 200)) (demo_frame 0)
            State.init).1).1, []) :=
  have hn : no_hands demo_no_hands := ⟨demo_head, rfl, rfl, rfl⟩
  ⟨hn, by decide,
    no_hands_twice_is_silent demo_env demo_no_hands demo_no_hands (demo_frame 1) (demo_frame 2)
      (interpret_guestures demo_env (some (demo_two_hands 100 200)) (demo_frame 0)
        State.init).1 hn hn⟩

/-! ## First co-occurrence of both hands -/

/-- C9. In a reachable state that retains no point of the previous frame, a
frame with both hands active and in bounds emits no event and puts both slots
in phase Scrolling. If the next frame again has both hands active and in
bounds, with stabilized points `l` and `r`, its events and its resulting state
are those of one call of the configured interpreter (Wheel in wheel mode,
otherwise Pinch) on `(l, r)`, the two points being the new slot points and the
new retained points. -/
theorem first_two_hand_frame_skipped (env : Env) (s : State)
    (jl1 jl2 : SkeltrackJointList) (f1 f2 : Frame)
    (hreach : Reachable env s)
    (hl : s.last_left_point = none) (hr : s.last_right_point = none)
    (h1 : both_hands f1 jl1) (h2 : both_hands f2 jl2) :
    (interpret_guestures env (some jl1) f1 s).2 = []
    ∧ (interpret_guestures env (some jl1) f1 s).1.pointer_1_event_type = CLUTTER_SCROLL
    ∧ (interpret_guestures env (some jl1) f1 s).1.pointer_2_event_type = CLUTTER_SCROLL
    ∧ ∃ l r, smooth_point f2.buffer f2.width f2.height jl2.left_hand = some l
      ∧ smooth_point f2.buffer f2.width f2.height jl2.right_hand = some r
      ∧ interpret_guestures env (some jl2) f2 (interpret_guestures env (some jl1) f1 s).1
        = ({ ((if env.DOUBLE_HAND_WHEEL_MODE then interpret_wheel_gesture env l r
                else interpret_pinch_gesture env l r)
              { (interpret_guestures env (some jl1) f1 s).1 with
                  heap_next := s.heap_next + 4,
                  pointer_1 := some { addr := s.heap_next + 2, pt := l },
                  pointer_2 := some { addr := s.heap_next + 3, pt := r } }).1 with
              last_left_point := some { addr := s.heap_next + 2, pt := l },
              last_right_point := some { addr := s.heap_next + 3, pt := r } },
           ((if env.DOUBLE_HAND_WHEEL_MODE then interpret_wheel_gesture env l r
                else interpret_pinch_gesture env l r)
              { (interpret_guestures env (some jl1) f1 s).1 with
                  heap_next := s.heap_next + 4,
                  pointer_1 := some { addr := s.heap_next + 2, pt := l },
                  pointer_2 := some { addr := s.heap_next + 3, pt := r } }).2) := by
  have hidle := reachable_idle_without_last env s hreach hl hr
  obtain ⟨l1, r1, _, _, e1⟩ := interpret_guestures_both_hands env jl1 f1 s h1
  have hne : ¬ s.pointer_1_event_type = CLUTTER_MOTION := by rw [hidle.1]; decide
  have e1b : interpret_guestures env (some jl1) f1 s
      = ({ s with heap_next := s.heap_next + 2,
                  pointer_1 := some { addr := s.heap_next, pt := l1 },
                  pointer_2 := some { addr := s.heap_next + 1, pt := r1 },
                  pointer_1_event_type := CLUTTER_SCROLL,
                  pointer_2_event_type := CLUTTER_SCROLL,
                  last_left_point := some { addr := s.heap_next, pt := l1 },
                  last_right_point := some { addr := s.heap_next + 1, pt := r1 } }, []) := by
    rw [e1, dispatch_both]
    simp [hne, both_hands_entered, hl, hr]
  obtain ⟨l, r, hl2, hr2, e2⟩ :=
    interpret_guestures_both_hands env jl2 f2 (interpret_guestures env (some jl1) f1 s).1 h2
  refine ⟨by rw [e1b], by rw [e1b], by rw [e1b], l, r, hl2, hr2, ?_⟩
  rw [e2, dispatch_both]
  rw [e1b]
  cases hm : env.DOUBLE_HAND_WHEEL_MODE <;> simp [both_hands_entered, hm]

/-- Witness of C9: from the initial state, a first frame with both hands emits
nothing; a second one presses turn-right and accelerate (one Wheel call). -/
theorem first_two_hand_frame_skipped_witness :
    Reachable demo_env State.init
    ∧ both_hands (demo_frame 0) (demo_two_hands 100 200)
    ∧ (interpret_guestures demo_env (some (demo_two_hands 100 200)) (demo_frame 0)
        State.init).2 = []
    ∧ (interpret_guestures demo_env (some (demo_two_hands 100 200)) (demo_frame 1)
        (interpret_guestures demo_env (some (demo_two_hands 100 200)) (demo_frame 0)
          State.init).1).2 = [XEvent.Key 114 true, XEvent.Key 111 true] :=
  have hb0 : both_hands (demo_frame 0) (demo_two_hands 100 200) :=
    ⟨demo_head, _, _, rfl, rfl, rfl, by decide, by decide,
      ⟨by decide, by decide⟩, ⟨by decide, by decide⟩⟩
  have hb1 : both_hands (demo_frame 1) (demo_two_hands 100 200) :=
    ⟨demo_head, _, _, rfl, rfl, rfl, by decide, by decide,
      ⟨by decide, by decide⟩, ⟨by decide, by decide⟩⟩
  ⟨Reachable.init, hb0,
    (first_two_hand_frame_skipped demo_env State.init (demo_two_hands 100 200)
      (demo_two_hands 100 200) (demo_frame 0) (demo_frame 1) Reachable.init rfl rfl
      hb0 hb1).1,
    by decide⟩

/-! ## Tracking failure -/

/-- C10 as stated fails. In the state after one frame with both hands, a
failed tracking call and a frame without joint list emit nothing and keep the
state, whereas a NoHands frame releases button 1 and drops the retained
points. -/
theorem tracking_failure_differs_from_no_hands :
    on_track_joints demo_env TrackResult.error (demo_frame 1)
        (interpret_guestures demo_env (some (demo_two_hands 100 200)) (demo_frame 0)
          State.init).1
      ≠ on_track_joints demo_env (TrackResult.ok (some demo_no_hands)) (demo_frame 1)
        (interpret_guestures demo_env (some (demo_two_hands 100 200)) (demo_frame 0)
          State.init).1
    ∧ on_track_joints demo_env (TrackResult.ok none) (demo_frame 1)
        (interpret_guestures demo_env (some (demo_two_hands 100 200)) (demo_frame 0)
          State.init).1
      ≠ on_track_joints demo_env (TrackResult.ok (some demo_no_hands)) (demo_frame 1)
        (interpret_guestures demo_env (some (demo_two_hands 100 200)) (demo_frame 0)
          State.init).1
    ∧ (on_track_joints demo_env TrackResult.error (demo_frame 1)
        (interpret_guestures demo_env (some (demo_two_hands 100 200)) (demo_frame 0)
          State.init).1).2 = []
    ∧ (on_track_joints demo_env (TrackResult.ok (some demo_no_hands)) (demo_frame 1)
        (interpret_guestures demo_env (some (demo_two_hands 100 200)) (demo_frame 0)
          State.init).1).2 = [XEvent.Button 1 false] := by
  decide

/-- C10, amended. For every state, a frame whose tracking failed and a frame
that carries no joint list emit no event and leave the persisted state
unchanged. A NoHands frame is handled the same way exactly when the state
retains no hand point of the previous frame. -/
theorem tracking_failure_skips_frame (env : Env) (jl : SkeltrackJointList) (f : Frame)
    (s : State) (h : no_hands jl) :
    on_track_joints env TrackResult.error f s = (s, [])
    ∧ on_track_joints env (TrackResult.ok none) f s = (s, [])
    ∧ (on_track_joints env (TrackResult.ok (some jl)) f s = (s, [])
        ↔ s.last_left_point = none ∧ s.last_right_point = none) := by
  refine ⟨rfl, rfl, ?_⟩
  show interpret_guestures env (some jl) f s = (s, []) ↔ _
  rw [interpret_guestures_no_hands env jl f s h]
  by_cases hc : s.last_right_point ≠ none ∨ s.last_left_point ≠ none
  · rw [if_pos hc]
    constructor
    · intro e
      have e2 := congrArg Prod.snd e
      simp only [both_hands_left] at e2
      split at e2 <;> simp at e2
    · intro hn
      rcases hc with hc | hc
      · exact absurd hn.2 hc
      · exact absurd hn.1 hc
  · rw [if_neg hc]
    simp only [not_or, not_not, ne_eq] at hc
    exact ⟨fun _ => ⟨hc.2, hc.1⟩, fun _ => rfl⟩

/-- Witness of C10, amended: in the initial state, which retains no point, the
failed frame, the frame without joint list and the NoHands frame all emit
nothing and change nothing. -/
theorem tracking_failure_skips_frame_witness :
    no_hands demo_no_hands
    ∧ on_track_joints demo_env TrackResult.error (demo_frame 0) State.init = (State.init, [])
    ∧ on_track_joints demo_env (TrackResult.ok none) (demo_frame 0) State.init
        = (State.init, [])
    ∧ on_track_joints demo_env (TrackResult.ok (some demo_no_hands)) (demo_frame 0) State.init
        = (State.init, []) :=
  have hn : no_hands demo_no_hands := ⟨demo_head, rfl, rfl, rfl⟩
  have h := tracking_failure_skips_frame demo_env demo_no_hands (demo_frame 0) State.init hn
  ⟨hn, h.1, h.2.1, h.2.2.mpr ⟨rfl, rfl⟩⟩



/-! ## Missing head, activity classifier, point stabilizer -/

/-- C11. For every state and every frame whose joint list has no head joint,
whatever the hand joints are, `interpret_guestures` emits no event and
returns the state unchanged (every persisted variable keeps its value). -/
theorem missing_head_skips_frame (env : Env) (lh rh : Option SkeltrackJoint) (f : Frame)
    (s : State) :
    interpret_guestures env (some { head := none, left_hand := lh, right_hand := rh }) f s
      = (s, []) := rfl

/-- C12. `hand_is_active` answers true exactly when the hand is present and
`|head.z - hand.z| > 250`; a depth gap of exactly 250 is not active and a gap
of 251 is active, whether the hand is nearer or farther than the head. -/
theorem hand_is_active_iff (head : SkeltrackJoint) (hand : Option SkeltrackJoint)
    (sx sy : Int) :
    (hand_is_active head hand = true ↔ ∃ h, hand = some h ∧ 250 < |head.z - h.z|)
    ∧ hand_is_active head (some { screen_x := sx, screen_y := sy, z := head.z + 250 }) = false
    ∧ hand_is_active head (some { screen_x := sx, screen_y := sy, z := head.z - 250 }) = false
    ∧ hand_is_active head (some { screen_x := sx, screen_y := sy, z := head.z + 251 }) = true
    ∧ hand_is_active head (some { screen_x := sx, screen_y := sy, z := head.z - 251 }) = true := by
  refine ⟨?_, ?_, ?_, ?_, ?_⟩
  · cases hand with
    | none => simp [hand_is_active]
    | some h => simp [hand_is_active, ABS_eq_abs, GESTURE_THRESHOLD]
  all_goals
    simp only [hand_is_active, GESTURE_THRESHOLD, ABS, decide_eq_true_eq, decide_eq_false_iff_not]
    split <;> omega

/-- C13. For a buffer whose dimensions are `gint` values (as `BufferInfo`
holds them) and a joint with `gint` screen coordinates, `smooth_point` returns
no point for a null joint, and for a non-null joint it returns no point exactly
when `x < 0`, `x >= width`, `y < 0` or `y >= height`; it returns a point in
every other case. -/
theorem smooth_point_none_iff (buffer : Nat → Nat) (width height : Nat) (jt : SkeltrackJoint)
    (hw : width < 2147483648) (hh : height < 2147483648)
    (hx : is_gint jt.screen_x) (hy : is_gint jt.screen_y) :
    smooth_point buffer width height none = none
    ∧ (smooth_point buffer width height (some jt) = none
        ↔ (jt.screen_x < 0 ∨ (width : Int) ≤ jt.screen_x
            ∨ jt.screen_y < 0 ∨ (height : Int) ≤ jt.screen_y)) := by
  refine ⟨rfl, ?_⟩
  unfold is_gint at hx hy
  have hb : (toGuint jt.screen_x ≥ width ∨ toGuint jt.screen_y ≥ height)
      ↔ (jt.screen_x < 0 ∨ (width : Int) ≤ jt.screen_x
            ∨ jt.screen_y < 0 ∨ (height : Int) ≤ jt.screen_y) := by
    unfold toGuint
    omega
  unfold smooth_point
  by_cases h : toGuint jt.screen_x ≥ width ∨ toGuint jt.screen_y ≥ height
  · simp only [h, if_true, true_iff]
    exact hb.mp h
  · simp only [h, if_false]
    constructor
    · intro e; cases e
    · intro e; exact absurd (hb.mpr e) h

/-- Witness of C13: in a 640 x 480 buffer, `x = -1` and `x = 640` give no
point and `(639, 479)` gives a point. -/
theorem smooth_point_none_iff_witness :
    (640 : Nat) < 2147483648 ∧ is_gint (-1) ∧ is_gint 100
    ∧ smooth_point (fun _ => 0) 640 480 (some { screen_x := -1, screen_y := 100, z := 500 }) = none
    ∧ smooth_point (fun _ => 0) 640 480 (some { screen_x := 640, screen_y := 100, z := 500 }) = none
    ∧ smooth_point (fun _ => 0) 640 480 (some { screen_x := 639, screen_y := 479, z := 500 })
        ≠ none := by
  have g1 : is_gint (-1) := by unfold is_gint; decide
  have g2 : is_gint 100 := by unfold is_gint; decide
  have g3 : is_gint 640 := by unfold is_gint; decide
  have g4 : is_gint 639 := by unfold is_gint; decide
  have g5 : is_gint 479 := by unfold is_gint; decide
  refine ⟨by decide, g1, g2, ?_, ?_, ?_⟩
  · exact (smooth_point_none_iff (fun _ => 0) 640 480 ⟨-1, 100, 500⟩ (by decide) (by decide)
      g1 g2).2.mpr (Or.inl (by decide))
  · exact (smooth_point_none_iff (fun _ => 0) 640 480 ⟨640, 100, 500⟩ (by decide) (by decide)
      g3 g2).2.mpr (Or.inr (Or.inl (by decide)))
  · intro e
    have h := (smooth_point_none_iff (fun _ => 0) 640 480 ⟨639, 479, 500⟩ (by decide) (by decide)
      g4 g5).2.mp e
    revert h
    decide

theorem foldl_fixed {α β : Type} (f : α → β → α) (acc : α) (l : List β)
    (h : ∀ b, b ∈ l → f acc b = acc) : l.foldl f acc = acc := by
  induction l with
  | nil => rfl
  | cons b l ih =>
    rw [List.foldl_cons, h b (List.mem_cons_self b l)]
    exact ih (fun c hc => h c (List.mem_cons_of_mem b hc))

theorem mem_cast_range (n : Nat) (b : Int)
    (h : b ∈ (do let a ← List.range n; pure (a : Int) : List Int)) :
    ∃ a : Nat, a < n ∧ b = (a : Int) := by
  simpa using h

theorem smooth_column_fixed (buffer : Nat → Nat) (width height : Nat) (x y z : Int)
    (hx : is_gint x) (hy : is_gint y)
    (h : no_close_neighbour buffer width height x y z) (a : Nat) (ha : a < 16)
    (acc : SmoothAcc) :
    smooth_column buffer width height x y z (x - 16 + 2 * (a : Int)) acc = acc := by
  unfold is_gint at hx hy
  unfold smooth_column
  split
  · rfl
  · rename_i hi
    apply foldl_fixed
    intro b hmem
    obtain ⟨b, hb, rfl⟩ := mem_cast_range 16 b hmem
    unfold smooth_cell
    split
    · rfl
    · rename_i hj
      have hq := h a b ha hb
      unfold depth_at at hq
      unfold toGuint at hi hj
      have hq2 := hq (by omega) (by omega) (by omega) (by omega) (by omega)
      simp only
      rw [if_neg]
      intro hc
      exact hq2 ⟨hc.2, hc.1⟩

/-- C14. For an in-bounds joint `(x, y, z)` and a buffer in which no sampled
neighbour has a depth in `[z - 50, z)`, `smooth_point` returns exactly
`(x, y, z)`; this is the case of the uniform buffer whose samples all equal
`z`. -/
theorem smooth_point_unchanged (buffer : Nat → Nat) (width height : Nat) (x y z : Int)
    (hx : is_gint x) (hy : is_gint y)
    (hx0 : 0 ≤ x) (hx1 : x < width) (hy0 : 0 ≤ y) (hy1 : y < height)
    (h : no_close_neighbour buffer width height x y z) :
    smooth_point buffer width height (some { screen_x := x, screen_y := y, z := z })
      = some { x := x, y := y, z := z }
    ∧ smooth_point (fun _ => z.toNat) width height
        (some { screen_x := x, screen_y := y, z := z })
      = some { x := x, y := y, z := z } := by
  have hb : ¬ (toGuint x ≥ width ∨ toGuint y ≥ height) := by
    unfold is_gint at hx hy
    unfold toGuint
    omega
  have hu : no_close_neighbour (fun _ => z.toNat) width height x y z := by
    intro a b _ _ _ _ _ _ _
    unfold depth_at
    simp only
    omega
  have key : ∀ buf, no_close_neighbour buf width height x y z →
      smooth_point buf width height (some { screen_x := x, screen_y := y, z := z })
        = some { x := x, y := y, z := z } := by
    intro buf hbuf
    unfold smooth_point
    simp only [hb, if_false]
    rw [foldl_fixed _ _ _ (fun b hb => by
      obtain ⟨a, ha, rfl⟩ := mem_cast_range 16 b hb
      exact smooth_column_fixed buf width height x y z hx hy hbuf a ha _)]
    simp
  exact ⟨key buffer h, key _ hu⟩

/-- Witness of C14: the joint `(100, 100, 500)` in a uniform 640 x 480 buffer
of depth 500. -/
theorem smooth_point_unchanged_witness :
    is_gint 100 ∧ no_close_neighbour (fun _ => 500) 640 480 100 100 500
    ∧ smooth_point (fun _ => 500) 640 480 (some { screen_x := 100, screen_y := 100, z := 500 })
        = some { x := 100, y := 100, z := 500 } :=
  have g : is_gint 100 := by unfold is_gint; decide
  have hn : no_close_neighbour (fun _ => 500) 640 480 100 100 500 := by
    intro a b _ _ _ _ _ _ _
    unfold depth_at
    simp only
    omega
  ⟨g, hn, (smooth_point_unchanged (fun _ => 500) 640 480 100 100 500 g g (by decide)
    (by decide) (by decide) (by decide) hn).1⟩

/-! ## Frame preprocessor -/

theorem getElem?_set_other (L : List Nat) (p q v : Nat) (h : p ≠ q) :
    (L.set p v)[q]? = L[q]? := by
  simp [List.getElem?_set, h]

theorem getElem?_set_same (L : List Nat) (p v : Nat) (h : p < L.length) :
    (L.set p v)[p]? = some v := by
  simp [List.getElem?_set, h]

theorem cell_index_inj (rw i j i2 j2 : Nat) (hi : i < rw) (hi2 : i2 < rw)
    (h : j * rw + i = j2 * rw + i2) : i = i2 ∧ j = j2 := by
  have hj : j = j2 := by
    rcases Nat.lt_trichotomy j j2 with hlt | heq | hgt
    · have := Nat.mul_le_mul_right rw (Nat.succ_le_of_lt hlt)
      rw [Nat.succ_mul] at this
      omega
    · exact heq
    · have := Nat.mul_le_mul_right rw (Nat.succ_le_of_lt hgt)
      rw [Nat.succ_mul] at this
      omega
  subst hj
  exact ⟨by omega, rfl⟩

theorem cell_index_lt (rw rh i j : Nat) (hi : i < rw) (hj : j < rh) : j * rw + i < rw * rh := by
  have := Nat.mul_le_mul_right rw (Nat.succ_le_of_lt hj)
  rw [Nat.succ_mul] at this
  rw [Nat.mul_comm rw rh]
  omega

/-- Under the size bound, `process_cell` writes the kept sample into cell
`(i, j)`. -/
theorem process_cell_eq (buffer : Nat → Nat) (width height k tb te : Nat) (i j : Nat)
    (L : List Nat) (hk : 0 < k) (hsz : width * height < 2147483648)
    (hi : i < width / k) (hj : j < height / k) :
    process_cell buffer width k tb te (width / k) i j L
      = L.set (j * (width / k) + i) (kept_sample buffer width k tb te i j) := by
  have hik : i * k < width := by
    have h1 := Nat.mul_le_mul_right k (Nat.succ_le_of_lt hi)
    have h2 := Nat.div_mul_le_self width k
    rw [Nat.succ_mul] at h1
    omega
  have hjk : j * k < height := by
    have h1 := Nat.mul_le_mul_right k (Nat.succ_le_of_lt hj)
    have h2 := Nat.div_mul_le_self height k
    rw [Nat.succ_mul] at h1
    omega
  have hidx : j * width * k + i * k = j * k * width + i * k := by ring
  have hlt : j * k * width + i * k < 4294967296 := by
    have h1 := Nat.mul_le_mul_right width (Nat.succ_le_of_lt hjk)
    rw [Nat.succ_mul, Nat.mul_comm height width] at h1
    omega
  unfold process_cell kept_sample raw_sample
  simp only [hidx, Nat.mod_eq_of_lt hlt]
  by_cases hv : buffer (j * k * width + i * k) % 65536 < tb
      ∨ buffer (j * k * width + i * k) % 65536 > te
  · rw [if_pos hv, if_neg (by omega)]
  · rw [if_neg hv, if_pos (by omega)]

/-- One column of `process_buffer`: rows `0 .. n - 1` of column `i` hold their
kept samples, the length is unchanged and no other cell is written. -/
theorem process_column (buffer : Nat → Nat) (width height k tb te : Nat) (i : Nat)
    (hk : 0 < k) (hsz : width * height < 2147483648) (hi : i < width / k)
    (L : List Nat) (hL : L.length = width / k * (height / k)) (n : Nat) (hn : n ≤ height / k) :
    ((List.range n).foldl
        (fun acc2 j => process_cell buffer width k tb te (width / k) i j acc2) L).length
      = width / k * (height / k)
    ∧ (∀ j, j < n →
        ((List.range n).foldl
          (fun acc2 j => process_cell buffer width k tb te (width / k) i j acc2)
          L)[j * (width / k) + i]? = some (kept_sample buffer width k tb te i j))
    ∧ (∀ q, (∀ j, j < n → j * (width / k) + i ≠ q) →
        ((List.range n).foldl
          (fun acc2 j => process_cell buffer width k tb te (width / k) i j acc2) L)[q]?
          = L[q]?) := by
  induction n with
  | zero =>
    refine ⟨hL, ?_, ?_⟩
    · intro j hj; omega
    · intro q _; rfl
  | succ n ih =>
    obtain ⟨ih1, ih2, ih3⟩ := ih (Nat.le_of_succ_le hn)
    have hnlt : n < height / k := hn
    rw [List.range_succ, List.foldl_append, List.foldl_cons, List.foldl_nil,
      process_cell_eq buffer width height k tb te i n _ hk hsz hi hnlt]
    refine ⟨by rw [List.length_set]; exact ih1, ?_, ?_⟩
    · intro j hj
      by_cases hjn : j = n
      · subst hjn
        apply getElem?_set_same
        rw [ih1]
        exact cell_index_lt _ _ _ _ hi hnlt
      · rw [getElem?_set_other]
        · exact ih2 j (by omega)
        · intro he
          exact hjn (cell_index_inj _ _ _ _ _ hi hi he).2.symm
    · intro q hq
      rw [getElem?_set_other _ _ _ _ (hq n (Nat.lt_succ_self n))]
      exact ih3 q (fun j hj => hq j (Nat.lt_succ_of_lt hj))

/-- The columns `0 .. n - 1` of `process_buffer` hold their kept samples. -/
theorem process_columns (buffer : Nat → Nat) (width height k tb te : Nat)
    (hk : 0 < k) (hsz : width * height < 2147483648) (n : Nat) (hn : n ≤ width / k) :
    ((List.range n).foldl
        (fun acc i =>
          (List.range (height / k)).foldl
            (fun acc2 j => process_cell buffer width k tb te (width / k) i j acc2) acc)
        (List.replicate (width / k * (height / k)) 0)).length = width / k * (height / k)
    ∧ (∀ i j, i < n → j < height / k →
        ((List.range n).foldl
          (fun acc i =>
            (List.range (height / k)).foldl
              (fun acc2 j => process_cell buffer width k tb te (width / k) i j acc2) acc)
          (List.replicate (width / k * (height / k)) 0))[j * (width / k) + i]?
          = some (kept_sample buffer width k tb te i j)) := by
  induction n with
  | zero =>
    refine ⟨by simp, ?_⟩
    intro i j hi; omega
  | succ n ih =>
    obtain ⟨ih1, ih2⟩ := ih (Nat.le_of_succ_le hn)
    have hnlt : n < width / k := hn
    rw [List.range_succ, List.foldl_append, List.foldl_cons, List.foldl_nil]
    obtain ⟨c1, c2, c3⟩ := process_column buffer width height k tb te n hk hsz hnlt _ ih1
      (height / k) (Nat.le_refl _)
    refine ⟨c1, ?_⟩
    intro i j hi hj
    by_cases hin : i = n
    · subst hin
      exact c2 j hj
    · rw [c3]
      · exact ih2 i j (by omega) hj
      · intro j2 _ he
        exact hin (cell_index_inj _ _ _ _ _ hnlt (by omega) he).1.symm

theorem sub_mod_div (w k : Nat) (hk : 0 < k) : (w - w % k) / k = w / k := by
  have h : w - w % k = k * (w / k) := by
    have := Nat.div_add_mod w k
    omega
  rw [h, Nat.mul_div_cancel_left _ hk]

/-- C15. For a positive factor `k` and a frame whose sample count fits a
`gint`, `process_buffer` produces a reduced buffer of `width / k` by
`height / k` cells (integer division), and cell `(i, j)` holds the raw sample
at column `i * k`, row `j * k` when that sample lies in
`[threshold_begin, threshold_end]` and 0 otherwise. -/
theorem process_buffer_spec (buffer : Nat → Nat) (width height k tb te : Nat) (i j : Nat)
    (hk : 0 < k) (hsz : width * height < 2147483648)
    (hi : i < width / k) (hj : j < height / k) :
    (process_buffer buffer width height k tb te).reduced_width = width / k
    ∧ (process_buffer buffer width height k tb te).reduced_height = height / k
    ∧ (process_buffer buffer width height k tb te).reduced_buffer.length
        = width / k * (height / k)
    ∧ (process_buffer buffer width height k tb te).reduced_buffer[j * (width / k) + i]?
        = some (if tb ≤ raw_sample buffer width (i * k) (j * k)
                    ∧ raw_sample buffer width (i * k) (j * k) ≤ te
                then raw_sample buffer width (i * k) (j * k) else 0) := by
  obtain ⟨c1, c2⟩ := process_columns buffer width height k tb te hk hsz (width / k)
    (Nat.le_refl _)
  unfold process_buffer
  simp only [sub_mod_div width k hk, sub_mod_div height k hk]
  exact ⟨trivial, trivial, c1, c2 i j hi hj⟩

/-- Witness of C15: with thresholds 500 and 503, the samples 499 .. 504 are
reduced to 0, 500, 501, 502, 503, 0 (both bounds kept, one unit outside
zeroed); a 5 x 3 frame reduced by 2 has 2 x 1 cells. -/
theorem process_buffer_spec_witness :
    (0 : Nat) < 2 ∧ 5 * 3 < 2147483648 ∧ 1 < 5 / 2 ∧ 0 < 3 / 2
    ∧ (process_buffer (fun idx => 498 + idx) 5 3 2 500 1500).reduced_buffer[1]? = some 500
    ∧ (process_buffer (fun idx => 499 + idx) 6 1 1 500 503).reduced_buffer
        = [0, 500, 501, 502, 503, 0]
    ∧ (process_buffer (fun idx => 498 + idx) 5 3 2 500 1500).reduced_buffer = [0, 500] := by
  refine ⟨by decide, by decide, by decide, by decide, ?_, by decide, by decide⟩
  have h := (process_buffer_spec (fun idx => 498 + idx) 5 3 2 500 1500 1 0 (by decide)
    (by decide) (by decide) (by decide)).2.2.2
  rw [show 0 * (5 / 2) + 1 = 1 from rfl] at h
  rw [h]
  decide

/-! ## Single-hand frames and debouncing -/

theorem interpret_guestures_single_hand (env : Env) (jl : SkeltrackJointList) (f : Frame)
    (s : State) (h : single_hand_frame f jl) :
    ∃ (p : Point) (lp rp : Option PointRef),
      ((lp = some { addr := s.heap_next, pt := p } ∧ rp = none)
        ∨ (lp = none ∧ rp = some { addr := s.heap_next, pt := p }))
      ∧ interpret_guestures env (some jl) f s
        = ({ (single_hand f.time { addr := s.heap_next, pt := p }
                { s with heap_next := s.heap_next + 1 }).1 with
              last_left_point := lp, last_right_point := rp },
           (single_hand f.time { addr := s.heap_next, pt := p }
                { s with heap_next := s.heap_next + 1 }).2) := by
  obtain ⟨head, hand, hh, hb, hcase⟩ := h
  obtain ⟨p, hp⟩ := smooth_point_in_bounds f hand hb
  rcases hcase with ⟨hl, hal, har⟩ | ⟨hr, hal, har⟩
  · refine ⟨p, some { addr := s.heap_next, pt := p }, none, Or.inl ⟨rfl, rfl⟩, ?_⟩
    unfold interpret_guestures
    simp only [hh, hand_points, hl, hal, har, hp, alloc_point]
    rfl
  · refine ⟨p, none, some { addr := s.heap_next, pt := p }, Or.inr ⟨rfl, rfl⟩, ?_⟩
    unfold interpret_guestures
    simp only [hh, hand_points, hr, hal, har, hp, alloc_point]
    rfl

theorem single_hand_idle (t : Int) (sp : PointRef) (s : State)
    (h1 : s.pointer_1_event_type = CLUTTER_NOTHING)
    (h2 : s.pointer_2_event_type = CLUTTER_NOTHING) (h3 : s.last_key = 0) :
    single_hand t sp s
      = ({ s with pointer_enter_time := t, pointer_1_event_type := CLUTTER_ENTER }, []) := by
  unfold single_hand
  simp [h1, h2, h3]

theorem single_hand_entering (t : Int) (sp : PointRef) (s : State)
    (h1 : s.pointer_1_event_type = CLUTTER_ENTER)
    (h2 : s.pointer_2_event_type = CLUTTER_NOTHING) (h3 : s.last_key = 0) :
    single_hand t sp s
      = if t - s.pointer_enter_time > 300000 then
          ({ s with pointer_1_event_type := CLUTTER_MOTION,
                    pointer_2_event_type := CLUTTER_NOTHING,
                    pointer_1 := some sp }, [XEvent.Motion sp.pt.x sp.pt.y])
        else (s, []) := by
  unfold single_hand
  simp [h1, h2, h3, GESTURE_TIMEOUT, set_mouse_pointer]

theorem single_hand_active (t : Int) (sp : PointRef) (s : State)
    (h1 : s.pointer_1_event_type = CLUTTER_MOTION)
    (h2 : s.pointer_2_event_type = CLUTTER_NOTHING) (h3 : s.last_key = 0) :
    single_hand t sp s
      = ({ s with pointer_1_event_type := CLUTTER_MOTION,
                  pointer_2_event_type := CLUTTER_NOTHING,
                  pointer_1 := some sp }, [XEvent.Motion sp.pt.x sp.pt.y]) := by
  unfold single_hand
  simp [h1, h2, h3, set_mouse_pointer]

/-- One more single-hand frame of a debouncing run: a pointer move and slot 1
Active when the timeout has elapsed, nothing and slot 1 Entering otherwise. -/
theorem debouncing_step (env : Env) (jl : SkeltrackJointList) (f : Frame) (s : State)
    (t0 tl : Int) (hs : debouncing t0 tl s) (hf : single_hand_frame f jl) (ht : tl ≤ f.time) :
    debouncing t0 f.time (interpret_guestures env (some jl) f s).1
    ∧ (if f.time - t0 > 300000 then
        (interpret_guestures env (some jl) f s).1.pointer_1_event_type = CLUTTER_MOTION
          ∧ ∃ x y, (interpret_guestures env (some jl) f s).2 = [XEvent.Motion x y]
      else
        (interpret_guestures env (some jl) f s).1.pointer_1_event_type = CLUTTER_ENTER
          ∧ (interpret_guestures env (some jl) f s).2 = []) := by
  obtain ⟨p, lp, rp, _, e⟩ := interpret_guestures_single_hand env jl f s hf
  obtain ⟨he, h2, h3, hcase⟩ := hs
  subst he
  rw [e]
  rcases hcase with ⟨h1, hle⟩ | ⟨h1, hgt⟩
  · rw [single_hand_entering f.time _ { s with heap_next := s.heap_next + 1 } h1 h2 h3]
    by_cases hc : f.time - s.pointer_enter_time > 300000
    · rw [if_pos hc, if_pos hc]
      exact ⟨⟨rfl, rfl, h3, Or.inr ⟨rfl, hc⟩⟩, rfl, _, _, rfl⟩
    · rw [if_neg hc, if_neg hc]
      exact ⟨⟨rfl, h2, h3, Or.inl ⟨h1, by omega⟩⟩, h1, rfl⟩
  · rw [single_hand_active f.time _ { s with heap_next := s.heap_next + 1 } h1 h2 h3]
    have hc : f.time - s.pointer_enter_time > 300000 := by omega
    rw [if_pos hc]
    exact ⟨⟨rfl, rfl, h3, Or.inr ⟨rfl, hc⟩⟩, rfl, _, _, rfl⟩

theorem debouncing_run (env : Env) (t0 tk : Int) (later : List (SkeltrackJointList × Frame)) :
    ∀ (s : State) (tl : Int), debouncing t0 tl s →
      (∀ p ∈ later, single_hand_frame p.2 p.1) →
      List.Chain (fun a b : Int => a ≤ b) tl (later.map (fun p => p.2.time) ++ [tk]) →
      ∃ tl2, tl2 ≤ tk
        ∧ debouncing t0 tl2
            (run env s (later.map (fun p => (TrackResult.ok (some p.1), p.2)))).1 := by
  induction later with
  | nil =>
    intro s tl hs _ hc
    simp only [List.map_nil, List.nil_append, List.chain_cons] at hc
    exact ⟨tl, hc.1, hs⟩
  | cons p rest ih =>
    intro s tl hs hall hc
    simp only [List.map_cons, List.cons_append, List.chain_cons] at hc
    have hstep := (debouncing_step env p.1 p.2 s t0 tl hs
      (hall p (List.mem_cons_self p rest)) hc.1).1
    obtain ⟨tl2, h1, h2⟩ := ih _ _ hstep
      (fun q hq => hall q (List.mem_cons_of_mem p hq)) hc.2
    exact ⟨tl2, h1, h2⟩

/-- C16. A run of single-hand frames with non-decreasing timestamps starting
in the idle state: the first frame (time `t_0`) emits nothing, puts slot 1 in
Entering and records `pointer_enter_time = t_0`; a later frame (time `t_k`)
emits one pointer move and has slot 1 Active when `t_k - t_0 > 300000`
microseconds, and emits nothing and leaves slot 1 Entering otherwise. -/
theorem single_hand_run_debounce (env : Env) (s0 : State)
    (jl0 : SkeltrackJointList) (f0 : Frame) (later : List (SkeltrackJointList × Frame))
    (jlk : SkeltrackJointList) (fk : Frame)
    (h1 : s0.pointer_1_event_type = CLUTTER_NOTHING)
    (h2 : s0.pointer_2_event_type = CLUTTER_NOTHING) (h3 : s0.last_key = 0)
    (hf0 : single_hand_frame f0 jl0)
    (hlater : ∀ p ∈ later, single_hand_frame p.2 p.1)
    (hfk : single_hand_frame fk jlk)
    (hsorted : List.Chain (fun a b : Int => a ≤ b) f0.time
      (later.map (fun p => p.2.time) ++ [fk.time])) :
    (interpret_guestures env (some jl0) f0 s0).2 = []
    ∧ (interpret_guestures env (some jl0) f0 s0).1.pointer_1_event_type = CLUTTER_ENTER
    ∧ (interpret_guestures env (some jl0) f0 s0).1.pointer_enter_time = f0.time
    ∧ (if fk.time - f0.time > 300000 then
        (interpret_guestures env (some jlk) fk
          (run env (interpret_guestures env (some jl0) f0 s0).1
            (later.map (fun p => (TrackResult.ok (some p.1), p.2)))).1).1.pointer_1_event_type
          = CLUTTER_MOTION
        ∧ ∃ x y, (interpret_guestures env (some jlk) fk
          (run env (interpret_guestures env (some jl0) f0 s0).1
            (later.map (fun p => (TrackResult.ok (some p.1), p.2)))).1).2
          = [XEvent.Motion x y]
      else
        (interpret_guestures env (some jlk) fk
          (run env (interpret_guestures env (some jl0) f0 s0).1
            (later.map (fun p => (TrackResult.ok (some p.1), p.2)))).1).1.pointer_1_event_type
          = CLUTTER_ENTER
        ∧ (interpret_guestures env (some jlk) fk
          (run env (interpret_guestures env (some jl0) f0 s0).1
            (later.map (fun p => (TrackResult.ok (some p.1), p.2)))).1).2 = []) := by
  obtain ⟨p, lp, rp, _, e⟩ := interpret_guestures_single_hand env jl0 f0 s0 hf0
  have e0 : interpret_guestures env (some jl0) f0 s0
      = ({ s0 with heap_next := s0.heap_next + 1, pointer_enter_time := f0.time,
                   pointer_1_event_type := CLUTTER_ENTER,
                   last_left_point := lp, last_right_point := rp }, []) := by
    rw [e, single_hand_idle f0.time _ { s0 with heap_next := s0.heap_next + 1 } h1 h2 h3]
  have hd0 : debouncing f0.time f0.time (interpret_guestures env (some jl0) f0 s0).1 := by
    rw [e0]
    exact ⟨rfl, h2, h3, Or.inl ⟨rfl, by omega⟩⟩
  obtain ⟨tl2, hle, hd⟩ := debouncing_run env f0.time fk.time later _ _ hd0 hlater hsorted
  refine ⟨by rw [e0], by rw [e0], by rw [e0], ?_⟩
  exact (debouncing_step env jlk fk _ f0.time tl2 hd hfk hle).2

/-- Witness of C16: frames at 0, 100000 and 300001 microseconds with the left
hand alone; the first emits nothing, the third moves the pointer. -/
theorem single_hand_run_debounce_witness :
    single_hand_frame (demo_frame 0) demo_one_hand
    ∧ (interpret_guestures demo_env (some demo_one_hand) (demo_frame 0) State.init).2 = []
    ∧ (interpret_guestures demo_env (some demo_one_hand) (demo_frame 100000)
        (interpret_guestures demo_env (some demo_one_hand) (demo_frame 0) State.init).1).2 = []
    ∧ (interpret_guestures demo_env (some demo_one_hand) (demo_frame 300001)
        (interpret_guestures demo_env (some demo_one_hand) (demo_frame 100000)
          (interpret_guestures demo_env (some demo_one_hand) (demo_frame 0)
            State.init).1).1).2 = [XEvent.Motion 100 100] :=
  have h0 : single_hand_frame (demo_frame 0) demo_one_hand :=
    ⟨demo_head, _, rfl, ⟨by decide, by decide⟩, Or.inl ⟨rfl, by decide, rfl⟩⟩
  have h1 : single_hand_frame (demo_frame 100000) demo_one_hand :=
    ⟨demo_head, _, rfl, ⟨by decide, by decide⟩, Or.inl ⟨rfl, by decide, rfl⟩⟩
  have h2 : single_hand_frame (demo_frame 300001) demo_one_hand :=
    ⟨demo_head, _, rfl, ⟨by decide, by decide⟩, Or.inl ⟨rfl, by decide, rfl⟩⟩
  ⟨h0,
    (single_hand_run_debounce demo_env State.init demo_one_hand (demo_frame 0)
      [(demo_one_hand, demo_frame 100000)] demo_one_hand (demo_frame 300001) rfl rfl rfl h0
      (fun p hp => by
        rw [List.mem_singleton] at hp
        rw [hp]
        exact h1)
      h2 (by simp [demo_frame])).1,
    by decide, by decide⟩

/-! ## Second hand entering -/

/-- What `second_hand_entered` does to slot 2 and which button events it
emits; slot 1 keeps its phase. -/
theorem second_hand_entered_slot_2 (t : Int) (L R : PointRef) (s : State) :
    (second_hand_entered t L R s).1.pointer_1_event_type = s.pointer_1_event_type
    ∧ (if s.pointer_2_event_type = CLUTTER_NOTHING then
        (second_hand_entered t L R s).1.pointer_2_event_type = CLUTTER_ENTER
          ∧ (second_hand_entered t L R s).1.pointer_enter_time = t
          ∧ button_events (second_hand_entered t L R s).2 = []
      else if s.pointer_2_event_type = CLUTTER_ENTER then
        (if t - s.pointer_enter_time > 300000 then
          (second_hand_entered t L R s).1.pointer_2_event_type = CLUTTER_BUTTON_PRESS
            ∧ button_events (second_hand_entered t L R s).2 = [XEvent.Button 1 true]
        else
          (second_hand_entered t L R s).1.pointer_2_event_type = CLUTTER_ENTER
            ∧ button_events (second_hand_entered t L R s).2 = [])
      else
        (second_hand_entered t L R s).1.pointer_2_event_type = s.pointer_2_event_type
          ∧ button_events (second_hand_entered t L R s).2 = []) := by
  unfold second_hand_entered
  by_cases h1 : s.pointer_2_event_type = CLUTTER_NOTHING
  · simp only [h1, if_true]
    split <;> simp [button_events, set_mouse_pointer]
  · by_cases h2 : s.pointer_2_event_type = CLUTTER_ENTER
    · by_cases h3 : t - s.pointer_enter_time > 300000
      · have h3b : t - s.pointer_enter_time > ((GESTURE_TIMEOUT * 1000 : Nat) : Int) := by
          simpa [GESTURE_TIMEOUT] using h3
        simp only [h1, h2, h3, h3b, if_true, if_false, true_and]
        split <;> simp [button_events, set_mouse_pointer, mouse_down]
      · have h3b : ¬ t - s.pointer_enter_time > ((GESTURE_TIMEOUT * 1000 : Nat) : Int) := by
          simpa [GESTURE_TIMEOUT] using h3
        simp only [h1, h2, h3, h3b, if_true, if_false, and_false]
        split <;> simp [button_events, set_mouse_pointer, h2]
    · simp only [h1, h2, if_false, false_and]
      split <;> simp [button_events, set_mouse_pointer]

/-- C18. With slot 1 Active, a frame with both hands active and in bounds
keeps slot 1 Active, and: if slot 2 is Idle it becomes Entering,
`pointer_enter_time` is set to the frame time and no button event is emitted;
if slot 2 is Entering it becomes Pressed with exactly one button-1 press when
the frame time exceeds `pointer_enter_time` by more than 300000 microseconds,
and stays Entering without button event otherwise; in any other phase (Pressed
in particular) slot 2 keeps its phase and no button event is emitted. -/
theorem second_hand_debounce (env : Env) (jl : SkeltrackJointList) (f : Frame) (s : State)
    (h1 : s.pointer_1_event_type = CLUTTER_MOTION) (hb : both_hands f jl) :
    (interpret_guestures env (some jl) f s).1.pointer_1_event_type = CLUTTER_MOTION
    ∧ (if s.pointer_2_event_type = CLUTTER_NOTHING then
        (interpret_guestures env (some jl) f s).1.pointer_2_event_type = CLUTTER_ENTER
          ∧ (interpret_guestures env (some jl) f s).1.pointer_enter_time = f.time
          ∧ button_events (interpret_guestures env (some jl) f s).2 = []
      else if s.pointer_2_event_type = CLUTTER_ENTER then
        (if f.time - s.pointer_enter_time > 300000 then
          (interpret_guestures env (some jl) f s).1.pointer_2_event_type = CLUTTER_BUTTON_PRESS
            ∧ button_events (interpret_guestures env (some jl) f s).2 = [XEvent.Button 1 true]
        else
          (interpret_guestures env (some jl) f s).1.pointer_2_event_type = CLUTTER_ENTER
            ∧ button_events (interpret_guestures env (some jl) f s).2 = [])
      else
        (interpret_guestures env (some jl) f s).1.pointer_2_event_type = s.pointer_2_event_type
          ∧ button_events (interpret_guestures env (some jl) f s).2 = []) := by
  obtain ⟨l, r, _, _, e⟩ := interpret_guestures_both_hands env jl f s hb
  rw [e, dispatch_both]
  have h1b : ({ s with heap_next := s.heap_next + 2 } : State).pointer_1_event_type
      = CLUTTER_MOTION := h1
  rw [if_pos h1b]
  have key := second_hand_entered_slot_2 f.time { addr := s.heap_next, pt := l }
    { addr := s.heap_next + 1, pt := r } { s with heap_next := s.heap_next + 2 }
  simp only at key
  exact ⟨key.1.trans h1, key.2⟩

/-- Witness of C18: after two single-hand frames slot 1 is Active; a frame
with both hands then puts slot 2 in Entering, and a frame with both hands
more than 300000 microseconds later presses button 1. -/
theorem second_hand_debounce_witness :
    (run demo_env State.init
        [(TrackResult.ok (some demo_one_hand), demo_frame 0),
         (TrackResult.ok (some demo_one_hand), demo_frame 300001)]).1.pointer_1_event_type
      = CLUTTER_MOTION
    ∧ both_hands (demo_frame 300002) (demo_two_hands 100 200)
    ∧ (interpret_guestures demo_env (some (demo_two_hands 100 200)) (demo_frame 300002)
        (run demo_env State.init
          [(TrackResult.ok (some demo_one_hand), demo_frame 0),
           (TrackResult.ok (some demo_one_hand), demo_frame 300001)]).1).1.pointer_1_event_type
      = CLUTTER_MOTION
    ∧ (interpret_guestures demo_env (some (demo_two_hands 100 200)) (demo_frame 300002)
        (run demo_env State.init
          [(TrackResult.ok (some demo_one_hand), demo_frame 0),
           (TrackResult.ok (some demo_one_hand), demo_frame 300001)]).1).1.pointer_2_event_type
      = CLUTTER_ENTER
    ∧ (run demo_env State.init
        [(TrackResult.ok (some demo_one_hand), demo_frame 0),
         (TrackResult.ok (some demo_one_hand), demo_frame 300001),
         (TrackResult.ok (some (demo_two_hands 100 200)), demo_frame 300002),
         (TrackResult.ok (some (demo_two_hands 100 200)), demo_frame 700000)]).2
      = [XEvent.Motion 100 100, XEvent.Motion 100 100, XEvent.Button 1 true,
         XEvent.Motion 100 100] :=
  have h1 : (run demo_env State.init
      [(TrackResult.ok (some demo_one_hand), demo_frame 0),
       (TrackResult.ok (some demo_one_hand), demo_frame 300001)]).1.pointer_1_event_type
      = CLUTTER_MOTION := by decide
  have hb : both_hands (demo_frame 300002) (demo_two_hands 100 200) :=
    ⟨demo_head, _, _, rfl, rfl, rfl, by decide, by decide,
      ⟨by decide, by decide⟩, ⟨by decide, by decide⟩⟩
  ⟨h1, hb,
    (second_hand_debounce demo_env (demo_two_hands 100 200) (demo_frame 300002) _ h1 hb).1,
    by decide, by decide⟩


/-! ## Slot invariant over reachable states -/

/-- The three shapes of the points of a frame: a single point, a pair of
distinct allocations, or no single point and no pair. -/
theorem hand_points_shape (f : Frame) (head : SkeltrackJoint)
    (lh rh : Option SkeltrackJoint) (s : State) :
    (∃ P, (hand_points f head lh rh s).1.single_point = some P
        ∧ (((hand_points f head lh rh s).1.left_point = some P
              ∧ (hand_points f head lh rh s).1.right_point = none)
            ∨ ((hand_points f head lh rh s).1.left_point = none
              ∧ (hand_points f head lh rh s).1.right_point = some P)))
    ∨ (∃ L R, (hand_points f head lh rh s).1.single_point = none
        ∧ (hand_points f head lh rh s).1.left_point = some L
        ∧ (hand_points f head lh rh s).1.right_point = some R ∧ L.addr ≠ R.addr)
    ∨ ((hand_points f head lh rh s).1.single_point = none
        ∧ ((hand_points f head lh rh s).1.left_point = none
            ∨ (hand_points f head lh rh s).1.right_point = none)) := by
  unfold hand_points
  cases hand_is_active head lh <;> cases hand_is_active head rh <;>
    cases smooth_point f.buffer f.width f.height lh <;>
    cases smooth_point f.buffer f.width f.height rh <;>
    simp [alloc_point]

theorem interpret_wheel_gesture_state (env : Env) (p1 p2 : Point) (s : State) :
    (interpret_wheel_gesture env p1 p2 s).1 = { s with last_key := env.keys.XK_Up } := rfl

theorem interpret_pinch_gesture_state (env : Env) (p1 p2 : Point) (s : State) :
    ∃ d, (interpret_pinch_gesture env p1 p2 s).1 = { s with old_distance := d } := by
  unfold interpret_pinch_gesture
  by_cases h1 : s.old_distance = -1
  · rw [if_pos h1]
    exact ⟨_, rfl⟩
  · rw [if_neg h1]
    by_cases h2 : toGuint (ABS (s.old_distance - get_distance p1 p2)) > PINCH_ACTIVATE_DISTANCE
    · simp only [h2, if_true]
      exact ⟨_, rfl⟩
    · simp only [h2, if_false]
      exact ⟨s.old_distance, rfl⟩

theorem single_hand_props (t : Int) (P : PointRef) (s : State)
    (i1 : (s.pointer_2_event_type = CLUTTER_ENTER ∨ s.pointer_2_event_type = CLUTTER_BUTTON_PRESS) →
      s.pointer_1_event_type = CLUTTER_MOTION) :
    (single_hand t P s).1.last_key = 0
    ∧ ((single_hand t P s).1.pointer_1_event_type = CLUTTER_MOTION →
        (single_hand t P s).1.pointer_1 = some P)
    ∧ (((single_hand t P s).1.pointer_2_event_type = CLUTTER_ENTER
          ∨ (single_hand t P s).1.pointer_2_event_type = CLUTTER_BUTTON_PRESS) →
        (single_hand t P s).1.pointer_1_event_type = CLUTTER_MOTION) := by
  rcases s with ⟨p1t, p2t, p1, p2, ll, lr, et, od, lk, hn⟩
  simp only at i1
  unfold single_hand
  by_cases hk : lk = 0 <;> cases p1t <;> cases p2t <;> simp [hk] <;>
    (try split_ifs) <;> simp_all

theorem ptr_eq_self (P : PointRef) : ptr_eq (some P) (some P) = true := by
  simp [ptr_eq]

/-- The function `second_hand_entered` with the choice of the point written
on the incoming state (lines 376-392 change neither `pointer_1` nor the
retained points). -/
theorem second_hand_entered_eq (t : Int) (L R : PointRef) (s : State) :
    second_hand_entered t L R s
      = ({ (if s.pointer_2_event_type = CLUTTER_NOTHING then
              { s with pointer_enter_time := t, pointer_2_event_type := CLUTTER_ENTER }
            else if s.pointer_2_event_type = CLUTTER_ENTER
                ∧ t - s.pointer_enter_time > ((GESTURE_TIMEOUT * 1000 : Nat) : Int) then
              { s with pointer_2_event_type := CLUTTER_BUTTON_PRESS }
            else s) with
            pointer_1 :=
              if ptr_eq s.pointer_1 s.last_left_point then some L
              else if ptr_eq s.pointer_1 s.last_right_point then some R else none },
          (if s.pointer_2_event_type = CLUTTER_NOTHING then []
            else if s.pointer_2_event_type = CLUTTER_ENTER
                ∧ t - s.pointer_enter_time > ((GESTURE_TIMEOUT * 1000 : Nat) : Int) then
              mouse_down 1
            else [])
          ++ (match (if ptr_eq s.pointer_1 s.last_left_point then some L
                else if ptr_eq s.pointer_1 s.last_right_point then some R else none) with
              | some p => set_mouse_pointer p.pt.x p.pt.y
              | none => [])) := by
  unfold second_hand_entered
  by_cases h1 : s.pointer_2_event_type = CLUTTER_NOTHING
  · simp only [h1, if_true]
    split <;> simp
  · by_cases h2 : s.pointer_2_event_type = CLUTTER_ENTER
        ∧ t - s.pointer_enter_time > ((GESTURE_TIMEOUT * 1000 : Nat) : Int)
    · have h2b := eq_true h2
      simp only [h1, h2b, if_true, if_false]
      split <;> simp
    · have h2b := eq_false h2
      simp only [h1, h2b, if_false]
      split <;> simp

/-- With slot 1 holding the retained left or right point, `second_hand_entered`
hands slot 1 the new point of the same hand and moves the pointer there. -/
theorem second_hand_entered_pointer (t : Int) (L R : PointRef) (s : State) (P : PointRef)
    (hp : s.pointer_1 = some P)
    (hlr : s.last_left_point = some P ∨ s.last_right_point = some P)
    (i4 : ∀ A B, s.last_left_point = some A → s.last_right_point = some B → A.addr ≠ B.addr) :
    (second_hand_entered t L R s).1.pointer_1
        = some (if s.last_left_point = some P then L else R)
    ∧ (second_hand_entered t L R s).1.last_key = s.last_key
    ∧ (second_hand_entered t L R s).1.pointer_1_event_type = s.pointer_1_event_type
    ∧ XEvent.Motion (if s.last_left_point = some P then L else R).pt.x
          (if s.last_left_point = some P then L else R).pt.y
        ∈ (second_hand_entered t L R s).2 := by
  have hpoint : (if ptr_eq s.pointer_1 s.last_left_point then some L
        else if ptr_eq s.pointer_1 s.last_right_point then some R else none)
      = some (if s.last_left_point = some P then L else R) := by
    rw [hp]
    by_cases hl : s.last_left_point = some P
    · rw [hl, ptr_eq_self, if_pos rfl, if_pos rfl]
    · have hr : s.last_right_point = some P := by
        rcases hlr with h | h
        · exact absurd h hl
        · exact h
      have hne : ptr_eq (some P) s.last_left_point = false := by
        cases hll : s.last_left_point with
        | none => simp [ptr_eq]
        | some A =>
          have := i4 A P hll hr
          simp [ptr_eq]
          exact fun h => this h.symm
      rw [hne, hr, ptr_eq_self, if_neg hl]
      simp
  rw [second_hand_entered_eq, hpoint]
  refine ⟨rfl, ?_, ?_, ?_⟩
  · simp only
    split_ifs <;> rfl
  · simp only
    split_ifs <;> rfl
  · simp [set_mouse_pointer]

theorem dispatch_single (env : Env) (t : Int) (hp : HandPoints) (s : State) (P : PointRef)
    (h : hp.single_point = some P) : dispatch env t hp s = single_hand t P s := by
  unfold dispatch
  simp [h]

theorem dispatch_pair (env : Env) (t : Int) (hp : HandPoints) (s : State) (L R : PointRef)
    (h0 : hp.single_point = none) (hl : hp.left_point = some L) (hr : hp.right_point = some R) :
    dispatch env t hp s
      = if s.pointer_1_event_type = CLUTTER_MOTION then second_hand_entered t L R s
        else both_hands_entered env L R s := by
  unfold dispatch
  simp [h0, hl, hr]

theorem dispatch_neither (env : Env) (t : Int) (hp : HandPoints) (s : State)
    (h0 : hp.single_point = none) (h : hp.left_point = none ∨ hp.right_point = none) :
    dispatch env t hp s
      = if s.last_right_point ≠ none ∨ s.last_left_point ≠ none then both_hands_left env s
        else (s, []) := by
  unfold dispatch
  rcases h with h | h
  · simp [h0, h]
  · cases hl : hp.left_point <;> simp [h0, h, hl]

theorem both_hands_left_last_key (env : Env) (s : State) :
    (both_hands_left env s).1.last_key = 0 := by
  unfold both_hands_left
  by_cases h : s.last_key = 0 <;> simp [h]

theorem both_hands_entered_types (env : Env) (L R : PointRef) (s : State) :
    (both_hands_entered env L R s).1.pointer_1_event_type = CLUTTER_SCROLL
    ∧ (both_hands_entered env L R s).1.pointer_2_event_type = CLUTTER_SCROLL := by
  unfold both_hands_entered
  simp only
  split
  · split
    · rw [interpret_wheel_gesture_state]
      exact ⟨rfl, rfl⟩
    · obtain ⟨d, hd⟩ := interpret_pinch_gesture_state env L.pt R.pt
        { s with pointer_1 := some L, pointer_2 := some R,
                 pointer_1_event_type := CLUTTER_SCROLL,
                 pointer_2_event_type := CLUTTER_SCROLL }
      rw [hd]
      exact ⟨rfl, rfl⟩
  · exact ⟨rfl, rfl⟩

/-- Every frame preserves the slot invariant. -/
theorem interpret_guestures_slot_invariant (env : Env) (jl : Option SkeltrackJointList)
    (f : Frame) (s : State) (h : slot_invariant s) :
    slot_invariant (interpret_guestures env jl f s).1 := by
  unfold interpret_guestures
  cases jl with
  | none => exact h
  | some jl =>
    cases hh : jl.head with
    | none => simpa [hh] using h
    | some head =>
      simp only [hh]
      have hshape := hand_points_shape f head jl.left_hand jl.right_hand s
      have hst := hand_points_state f head jl.left_hand jl.right_hand s
      generalize hand_points f head jl.left_hand jl.right_hand s = hps at hshape hst ⊢
      obtain ⟨hp, s0⟩ := hps
      simp only at hshape hst ⊢
      have h0 : slot_invariant s0 := by rw [hst]; exact h
      obtain ⟨i1, i2, i3, i4⟩ := h0
      rcases hshape with ⟨P, hs, hlr⟩ | ⟨L, R, hs, hl, hr, hne⟩ | ⟨hs, hnone⟩
      · rw [dispatch_single env f.time hp s0 P hs]
        obtain ⟨a, b, c⟩ := single_hand_props f.time P s0 i1
        refine ⟨c, ?_, ?_, ?_⟩
        · intro hk; exact absurd a hk
        · intro hm
          refine ⟨P, b hm, ?_⟩
          rcases hlr with ⟨h1, _⟩ | ⟨_, h2⟩
          · exact Or.inl h1
          · exact Or.inr h2
        · intro A B hA hB
          simp only at hA hB
          rcases hlr with ⟨_, h2⟩ | ⟨h1, _⟩
          · rw [h2] at hB; cases hB
          · rw [h1] at hA; cases hA
      · rw [dispatch_pair env f.time hp s0 L R hs hl hr]
        by_cases hm : s0.pointer_1_event_type = CLUTTER_MOTION
        · rw [if_pos hm]
          obtain ⟨P, hP, hPl⟩ := i3 hm
          obtain ⟨a, b, c, _⟩ := second_hand_entered_pointer f.time L R s0 P hP hPl i4
          refine ⟨fun _ => c.trans hm, ?_, ?_, ?_⟩
          · intro hk
            simp only at hk
            rw [b] at hk
            have := i2 hk
            rw [hm] at this
            cases this
          · intro _
            refine ⟨_, a, ?_⟩
            simp only
            by_cases hc : s0.last_left_point = some P
            · rw [if_pos hc]; exact Or.inl hl
            · rw [if_neg hc]; exact Or.inr hr
          · intro A B hA hB
            simp only at hA hB
            rw [hl] at hA
            rw [hr] at hB
            cases hA
            cases hB
            exact hne
        · rw [if_neg hm]
          obtain ⟨a, b⟩ := both_hands_entered_types env L R s0
          refine ⟨?_, fun _ => a, ?_, ?_⟩
          · intro hc
            simp only at hc
            rw [b] at hc
            rcases hc with hc | hc <;> cases hc
          · intro hc
            simp only at hc
            rw [a] at hc
            cases hc
          · intro A B hA hB
            simp only at hA hB
            rw [hl] at hA
            rw [hr] at hB
            cases hA
            cases hB
            exact hne
      · rw [dispatch_neither env f.time hp s0 hs hnone]
        have hI4 : ∀ A B, hp.left_point = some A → hp.right_point = some B → A.addr ≠ B.addr := by
          intro A B hA hB
          rcases hnone with hn | hn
          · rw [hn] at hA; cases hA
          · rw [hn] at hB; cases hB
        by_cases hc : s0.last_right_point ≠ none ∨ s0.last_left_point ≠ none
        · rw [if_pos hc]
          obtain ⟨a, b⟩ := both_hands_left_types env s0
          have k := both_hands_left_last_key env s0
          refine ⟨?_, fun hk => absurd k hk, ?_, hI4⟩
          · intro hc2
            simp only at hc2
            rw [b] at hc2
            rcases hc2 with hc2 | hc2 <;> cases hc2
          · intro hc2
            simp only at hc2
            rw [a] at hc2
            cases hc2
        · rw [if_neg hc]
          simp only [not_or, not_not, ne_eq] at hc
          refine ⟨i1, i2, ?_, hI4⟩
          intro hm
          obtain ⟨P, _, hPl⟩ := i3 hm
          rcases hPl with h1 | h1
          · rw [hc.2] at h1; cases h1
          · rw [hc.1] at h1; cases h1

/-- Every reachable state satisfies the slot invariant. -/
theorem reachable_slot_invariant (env : Env) (s : State) (h : Reachable env s) :
    slot_invariant s := by
  induction h with
  | init =>
    refine ⟨?_, ?_, ?_, ?_⟩
    · intro hc; rcases hc with hc | hc <;> cases hc
    · intro hc; exact absurd rfl hc
    · intro hc; cases hc
    · intro A B hA _; cases hA
  | step res f _ ih =>
    cases res with
    | error => exact ih
    | ok list => exact interpret_guestures_slot_invariant env list f _ ih

/-! ## Second hand leaving early, same-hand tracking, retained points -/

theorem reachable_run (env : Env) (frames : List (TrackResult × Frame)) :
    ∀ s, Reachable env s → Reachable env (run env s frames).1 := by
  induction frames with
  | nil => intro s h; exact h
  | cons p rest ih =>
    intro s h
    exact ih _ (Reachable.step p.1 p.2 h)

theorem single_hand_second_entering (t : Int) (sp : PointRef) (s : State)
    (h1 : s.pointer_1_event_type = CLUTTER_MOTION)
    (h2 : s.pointer_2_event_type = CLUTTER_ENTER) (h3 : s.last_key = 0) :
    single_hand t sp s
      = ({ s with pointer_1_event_type := CLUTTER_MOTION,
                  pointer_2_event_type := CLUTTER_NOTHING,
                  pointer_1 := some sp },
          [XEvent.Button 1 true, XEvent.Button 1 false, XEvent.Motion sp.pt.x sp.pt.y]) := by
  unfold single_hand
  simp [h1, h2, h3, set_mouse_pointer, mouse_click]

/-- C17 as stated fails. After two single-hand frames (slot 1 Active) and one
frame with both hands (slot 2 Entering, `pointer_enter_time = 300002`), a
single-hand frame one microsecond later, well within the timeout, emits a
press and a release of button 1 and a pointer move. -/
theorem second_hand_left_early_emits_click :
    Reachable demo_env
      (run demo_env State.init
        [(TrackResult.ok (some demo_one_hand), demo_frame 0),
         (TrackResult.ok (some demo_one_hand), demo_frame 300001),
         (TrackResult.ok (some (demo_two_hands 100 200)), demo_frame 300002)]).1
    ∧ (run demo_env State.init
        [(TrackResult.ok (some demo_one_hand), demo_frame 0),
         (TrackResult.ok (some demo_one_hand), demo_frame 300001),
         (TrackResult.ok (some (demo_two_hands 100 200)), demo_frame 300002)]).1.pointer_2_event_type
      = CLUTTER_ENTER
    ∧ (demo_frame 300003).time
        - (run demo_env State.init
            [(TrackResult.ok (some demo_one_hand), demo_frame 0),
             (TrackResult.ok (some demo_one_hand), demo_frame 300001),
             (TrackResult.ok (some (demo_two_hands 100 200)),
               demo_frame 300002)]).1.pointer_enter_time ≤ 300000
    ∧ (interpret_guestures demo_env (some demo_one_hand) (demo_frame 300003)
        (run demo_env State.init
          [(TrackResult.ok (some demo_one_hand), demo_frame 0),
           (TrackResult.ok (some demo_one_hand), demo_frame 300001),
           (TrackResult.ok (some (demo_two_hands 100 200)), demo_frame 300002)]).1).2
      = [XEvent.Button 1 true, XEvent.Button 1 false, XEvent.Motion 100 100] :=
  ⟨reachable_run demo_env _ State.init Reachable.init, by decide, by decide, by decide⟩

/-- C17, amended. In every reachable state in which slot 2 is Entering,
whatever the time since `pointer_enter_time`, a single-hand frame emits
exactly one click of button 1 (press, release) followed by one pointer move,
and no key event; slot 2 returns to Idle and slot 1 stays Active. -/
theorem second_hand_left_early_clicks (env : Env) (s : State) (jl : SkeltrackJointList)
    (f : Frame) (hreach : Reachable env s)
    (h2 : s.pointer_2_event_type = CLUTTER_ENTER) (hf : single_hand_frame f jl) :
    (∃ x y, (interpret_guestures env (some jl) f s).2
        = [XEvent.Button 1 true, XEvent.Button 1 false, XEvent.Motion x y])
    ∧ (interpret_guestures env (some jl) f s).1.pointer_2_event_type = CLUTTER_NOTHING
    ∧ (interpret_guestures env (some jl) f s).1.pointer_1_event_type = CLUTTER_MOTION := by
  obtain ⟨i1, i2, _, _⟩ := reachable_slot_invariant env s hreach
  have h1 : s.pointer_1_event_type = CLUTTER_MOTION := i1 (Or.inl h2)
  have h3 : s.last_key = 0 := by
    by_contra hk
    have := i2 hk
    rw [h1] at this
    cases this
  obtain ⟨p, lp, rp, _, e⟩ := interpret_guestures_single_hand env jl f s hf
  rw [e, single_hand_second_entering f.time _ { s with heap_next := s.heap_next + 1 } h1 h2 h3]
  exact ⟨⟨_, _, rfl⟩, rfl, rfl⟩

/-- Witness of C17, amended: the state after two single-hand frames and one
frame with both hands, followed by a single-hand frame. -/
theorem second_hand_left_early_clicks_witness :
    single_hand_frame (demo_frame 300003) demo_one_hand
    ∧ (interpret_guestures demo_env (some demo_one_hand) (demo_frame 300003)
        (run demo_env State.init
          [(TrackResult.ok (some demo_one_hand), demo_frame 0),
           (TrackResult.ok (some demo_one_hand), demo_frame 300001),
           (TrackResult.ok (some (demo_two_hands 100 200)),
             demo_frame 300002)]).1).1.pointer_2_event_type = CLUTTER_NOTHING :=
  have hf : single_hand_frame (demo_frame 300003) demo_one_hand :=
    ⟨demo_head, _, rfl, ⟨by decide, by decide⟩, Or.inl ⟨rfl, by decide, rfl⟩⟩
  ⟨hf,
    (second_hand_left_early_clicks demo_env _ demo_one_hand (demo_frame 300003)
      (reachable_run demo_env
        [(TrackResult.ok (some demo_one_hand), demo_frame 0),
         (TrackResult.ok (some demo_one_hand), demo_frame 300001),
         (TrackResult.ok (some (demo_two_hands 100 200)), demo_frame 300002)]
        State.init Reachable.init)
      (by decide) hf).2.1⟩

/-- C19. In every reachable state in which slot 1 is Active, slot 1 holds a
point and that point is the retained left point or the retained right point.
Hence a frame with both hands active and in bounds hands slot 1 the current
point of that same hand (the left one if slot 1 held the retained left point,
the right one otherwise), moves the pointer to it, and keeps slot 1 Active. -/
theorem active_slot_follows_same_hand (env : Env) (s : State) (jl : SkeltrackJointList)
    (f : Frame) (hreach : Reachable env s)
    (hm : s.pointer_1_event_type = CLUTTER_MOTION) (hb : both_hands f jl) :
    (∃ P, s.pointer_1 = some P
      ∧ (s.last_left_point = some P ∨ s.last_right_point = some P))
    ∧ ∃ l r, smooth_point f.buffer f.width f.height jl.left_hand = some l
      ∧ smooth_point f.buffer f.width f.height jl.right_hand = some r
      ∧ (interpret_guestures env (some jl) f s).1.pointer_1
          = some (if s.pointer_1 = s.last_left_point then { addr := s.heap_next, pt := l }
                  else { addr := s.heap_next + 1, pt := r })
      ∧ (if s.pointer_1 = s.last_left_point then XEvent.Motion l.x l.y
          else XEvent.Motion r.x r.y) ∈ (interpret_guestures env (some jl) f s).2
      ∧ (interpret_guestures env (some jl) f s).1.pointer_1_event_type = CLUTTER_MOTION := by
  obtain ⟨_, _, i3, i4⟩ := reachable_slot_invariant env s hreach
  obtain ⟨P, hP, hPl⟩ := i3 hm
  refine ⟨⟨P, hP, hPl⟩, ?_⟩
  obtain ⟨l, r, hl, hr, e⟩ := interpret_guestures_both_hands env jl f s hb
  refine ⟨l, r, hl, hr, ?_⟩
  rw [e, dispatch_both]
  have hm2 : ({ s with heap_next := s.heap_next + 2 } : State).pointer_1_event_type
      = CLUTTER_MOTION := hm
  rw [if_pos hm2]
  obtain ⟨a, _, c, d⟩ := second_hand_entered_pointer f.time { addr := s.heap_next, pt := l }
    { addr := s.heap_next + 1, pt := r } { s with heap_next := s.heap_next + 2 } P hP hPl i4
  simp only at a c d ⊢
  have hiff : (s.pointer_1 = s.last_left_point) ↔ (s.last_left_point = some P) := by
    rw [hP]
    exact ⟨fun h => h.symm, fun h => h.symm⟩
  by_cases hc : s.last_left_point = some P
  · rw [if_pos hc] at a d
    rw [if_pos (hiff.mpr hc), if_pos (hiff.mpr hc)]
    exact ⟨a, d, c.trans hm⟩
  · rw [if_neg hc] at a d
    have hc2 : ¬ s.pointer_1 = s.last_left_point := fun h => hc (hiff.mp h)
    rw [if_neg hc2, if_neg hc2]
    exact ⟨a, d, c.trans hm⟩

theorem interpret_guestures_last_points (env : Env) (head : SkeltrackJoint)
    (lh rh : Option SkeltrackJoint) (f : Frame) (s : State) :
    (interpret_guestures env (some { head := some head, left_hand := lh, right_hand := rh })
        f s).1.last_left_point = (hand_points f head lh rh s).1.left_point
    ∧ (interpret_guestures env (some { head := some head, left_hand := lh, right_hand := rh })
        f s).1.last_right_point = (hand_points f head lh rh s).1.right_point := by
  unfold interpret_guestures
  exact ⟨rfl, rfl⟩

/-- C20 as stated fails. After a frame with both hands the retained points are
the allocations 1 and 2; a following frame without head joint, or without
joint list, returns early and both retained points are still those of the
previous frame. -/
theorem early_return_retains_points :
    (interpret_guestures demo_env (some (demo_two_hands 100 200)) (demo_frame 0)
        State.init).1.last_left_point
      = some { addr := 1, pt := { x := 100, y := 100, z := 600 } }
    ∧ (interpret_guestures demo_env (some demo_headless) (demo_frame 1)
        (interpret_guestures demo_env (some (demo_two_hands 100 200)) (demo_frame 0)
          State.init).1).1.last_left_point
      = some { addr := 1, pt := { x := 100, y := 100, z := 600 } }
    ∧ (interpret_guestures demo_env (some demo_headless) (demo_frame 1)
        (interpret_guestures demo_env (some (demo_two_hands 100 200)) (demo_frame 0)
          State.init).1).1.last_right_point
      = some { addr := 2, pt := { x := 400, y := 200, z := 600 } }
    ∧ (interpret_guestures demo_env none (demo_frame 1)
        (interpret_guestures demo_env (some (demo_two_hands 100 200)) (demo_frame 0)
          State.init).1).1.last_left_point
      = some { addr := 1, pt := { x := 100, y := 100, z := 600 } } := by
  decide

/-- C20, amended. For every state and every frame with a joint list and a head
joint, whichever branch is taken, on return `last_left_point` is the left
stabilized point of this frame, a fresh allocation (null when the left hand is
not active or yields no point), and `last_right_point` the right one. On the
two early exits (no joint list, no head joint) the state is returned
unchanged. -/
theorem retained_points_overwritten (env : Env) (head : SkeltrackJoint)
    (lh rh : Option SkeltrackJoint) (f : Frame) (s : State) :
    (interpret_guestures env (some { head := some head, left_hand := lh, right_hand := rh })
        f s).1.last_left_point
      = (if hand_is_active head lh then smooth_point f.buffer f.width f.height lh
          else none).map (fun p => { addr := s.heap_next, pt := p })
    ∧ (interpret_guestures env (some { head := some head, left_hand := lh, right_hand := rh })
        f s).1.last_right_point
      = (if hand_is_active head rh then smooth_point f.buffer f.width f.height rh
          else none).map
          (fun p =>
            { addr := s.heap_next
                + (if (if hand_is_active head lh then smooth_point f.buffer f.width f.height lh
                        else none).isSome then 1 else 0),
              pt := p })
    ∧ interpret_guestures env none f s = (s, [])
    ∧ interpret_guestures env (some { head := none, left_hand := lh, right_hand := rh }) f s
        = (s, []) := by
  obtain ⟨a, b⟩ := interpret_guestures_last_points env head lh rh f s
  refine ⟨?_, ?_, rfl, rfl⟩
  · rw [a]
    unfold hand_points
    cases hand_is_active head lh <;> cases hand_is_active head rh <;>
      cases smooth_point f.buffer f.width f.height lh <;>
      cases smooth_point f.buffer f.width f.height rh <;> simp [alloc_point]
  · rw [b]
    unfold hand_points
    cases hand_is_active head lh <;> cases hand_is_active head rh <;>
      cases smooth_point f.buffer f.width f.height lh <;>
      cases smooth_point f.buffer f.width f.height rh <;> simp [alloc_point]

/-- Witness of C19: after two single-hand frames with the left hand, slot 1
holds the retained left point; a frame with both hands moves the pointer with
the left hand, now at height 150. -/
theorem active_slot_follows_same_hand_witness :
    Reachable demo_env
      (run demo_env State.init
        [(TrackResult.ok (some demo_one_hand), demo_frame 0),
         (TrackResult.ok (some demo_one_hand), demo_frame 300001)]).1
    ∧ both_hands (demo_frame 300002) (demo_two_hands 150 200)
    ∧ (∃ P, (run demo_env State.init
          [(TrackResult.ok (some demo_one_hand), demo_frame 0),
           (TrackResult.ok (some demo_one_hand), demo_frame 300001)]).1.pointer_1 = some P
        ∧ ((run demo_env State.init
            [(TrackResult.ok (some demo_one_hand), demo_frame 0),
             (TrackResult.ok (some demo_one_hand), demo_frame 300001)]).1.last_left_point = some P
          ∨ (run demo_env State.init
            [(TrackResult.ok (some demo_one_hand), demo_frame 0),
             (TrackResult.ok (some demo_one_hand), demo_frame 300001)]).1.last_right_point
              = some P))
    ∧ (interpret_guestures demo_env (some (demo_two_hands 150 200)) (demo_frame 300002)
        (run demo_env State.init
          [(TrackResult.ok (some demo_one_hand), demo_frame 0),
           (TrackResult.ok (some demo_one_hand), demo_frame 300001)]).1).2
      = [XEvent.Motion 100 150] :=
  have hr := reachable_run demo_env
    [(TrackResult.ok (some demo_one_hand), demo_frame 0),
     (TrackResult.ok (some demo_one_hand), demo_frame 300001)] State.init Reachable.init
  have hb : both_hands (demo_frame 300002) (demo_two_hands 150 200) :=
    ⟨demo_head, _, _, rfl, rfl, rfl, by decide, by decide,
      ⟨by decide, by decide⟩, ⟨by decide, by decide⟩⟩
  ⟨hr, hb,
    (active_slot_follows_same_hand demo_env _ (demo_two_hands 150 200) (demo_frame 300002)
      hr (by decide) hb).1,
    by decide⟩


/-! ## Phase monotonicity, stabilizer result, button state -/

/-- C22. In every state reachable from the initial state by any sequence of
frames, the two slots are not both in phase Entering. -/
theorem at_most_one_slot_entering (env : Env) (s : State) (h : Reachable env s) :
    ¬ (s.pointer_1_event_type = CLUTTER_ENTER ∧ s.pointer_2_event_type = CLUTTER_ENTER) := by
  intro hc
  have hm := (reachable_slot_invariant env s h).1 (Or.inl hc.2)
  rw [hc.1] at hm
  cases hm

/-- Witness of C22: after one single-hand frame slot 1 is Entering and slot 2
is Idle. -/
theorem at_most_one_slot_entering_witness :
    Reachable demo_env
      (run demo_env State.init [(TrackResult.ok (some demo_one_hand), demo_frame 0)]).1
    ∧ (run demo_env State.init
        [(TrackResult.ok (some demo_one_hand), demo_frame 0)]).1.pointer_1_event_type
      = CLUTTER_ENTER
    ∧ ¬ ((run demo_env State.init
          [(TrackResult.ok (some demo_one_hand), demo_frame 0)]).1.pointer_1_event_type
          = CLUTTER_ENTER
        ∧ (run demo_env State.init
          [(TrackResult.ok (some demo_one_hand), demo_frame 0)]).1.pointer_2_event_type
          = CLUTTER_ENTER) :=
  have hr := reachable_run demo_env [(TrackResult.ok (some demo_one_hand), demo_frame 0)]
    State.init Reachable.init
  ⟨hr, by decide, at_most_one_slot_entering demo_env _ hr⟩

theorem foldl_invariant {α β : Type} (P : α → Prop) (f : α → β → α) (l : List β)
    (hstep : ∀ a b, P a → P (f a b)) : ∀ acc, P acc → P (l.foldl f acc) := by
  induction l with
  | nil => intro acc h; exact h
  | cons b l ih => intro acc h; exact ih _ (hstep acc b h)

theorem smooth_cell_sums (buffer : Nat → Nat) (width height : Nat) (x y z i j : Int)
    (acc : SmoothAcc)
    (h : acc.x = x * acc.count ∧ acc.y = y * acc.count ∧ 1 ≤ acc.count) :
    (smooth_cell buffer width height x y z i j acc).x
        = x * (smooth_cell buffer width height x y z i j acc).count
    ∧ (smooth_cell buffer width height x y z i j acc).y
        = y * (smooth_cell buffer width height x y z i j acc).count
    ∧ 1 ≤ (smooth_cell buffer width height x y z i j acc).count := by
  unfold smooth_cell
  split
  · exact h
  · simp only
    split
    · obtain ⟨h1, h2, h3⟩ := h
      refine ⟨?_, ?_, ?_⟩
      · simp only [h1]; ring
      · simp only [h2]; ring
      · simp only; omega
    · exact h

theorem smooth_column_sums (buffer : Nat → Nat) (width height : Nat) (x y z i : Int)
    (acc : SmoothAcc)
    (h : acc.x = x * acc.count ∧ acc.y = y * acc.count ∧ 1 ≤ acc.count) :
    (smooth_column buffer width height x y z i acc).x
        = x * (smooth_column buffer width height x y z i acc).count
    ∧ (smooth_column buffer width height x y z i acc).y
        = y * (smooth_column buffer width height x y z i acc).count
    ∧ 1 ≤ (smooth_column buffer width height x y z i acc).count := by
  unfold smooth_column
  split
  · exact h
  · exact foldl_invariant
      (fun a : SmoothAcc => a.x = x * a.count ∧ a.y = y * a.count ∧ 1 ≤ a.count) _ _
      (fun a b ha => smooth_cell_sums buffer width height x y z i _ a ha) acc h

/-- C23. For every buffer and every joint `(x, y, z)` with `0 <= x < width`
and `0 <= y < height` (the running sums, at most `257 * x` and `257 * y`,
fitting a `gint`), `smooth_point` returns exactly `(x, y, z)`: the sums stay
`x * count` and `y * count`, so the division by the count gives back `x` and
`y`; the result is the same for any other buffer. -/
theorem smooth_point_returns_joint (buffer buffer2 : Nat → Nat) (width height : Nat)
    (x y z : Int)
    (hx0 : 0 ≤ x) (hx1 : x < width) (hy0 : 0 ≤ y) (hy1 : y < height)
    (hsx : 257 * x < 2147483648) (hsy : 257 * y < 2147483648) :
    smooth_point buffer width height (some { screen_x := x, screen_y := y, z := z })
      = some { x := x, y := y, z := z }
    ∧ smooth_point buffer width height (some { screen_x := x, screen_y := y, z := z })
      = smooth_point buffer2 width height (some { screen_x := x, screen_y := y, z := z }) := by
  have hb : ¬ (toGuint x ≥ width ∨ toGuint y ≥ height) := by
    unfold toGuint
    omega
  have key : ∀ buf, smooth_point buf width height
      (some { screen_x := x, screen_y := y, z := z }) = some { x := x, y := y, z := z } := by
    intro buf
    have hinv := foldl_invariant
      (fun a : SmoothAcc => a.x = x * a.count ∧ a.y = y * a.count ∧ 1 ≤ a.count)
      (fun a b => smooth_column buf width height x y z (x - 16 + 2 * b) a)
      (do let a ← List.range 16; pure (a : Int))
      (fun a b ha => smooth_column_sums buf width height x y z _ a ha)
      { x := x, y := y, count := 1 } ⟨by simp, by simp, by simp⟩
    unfold smooth_point
    simp only [hb, if_false]
    obtain ⟨h1, h2, h3⟩ := hinv
    rw [h1, h2]
    have hne : (List.foldl (fun a b => smooth_column buf width height x y z (x - 16 + 2 * b) a)
        { x := x, y := y, count := 1 } (do let a ← List.range 16; pure (a : Int))).count ≠ 0 := by
      omega
    rw [Int.mul_tdiv_cancel _ hne, Int.mul_tdiv_cancel _ hne]
  exact ⟨key buffer, by rw [key buffer, key buffer2]⟩

/-- Witness of C23: the joint `(100, 100, 500)` in a buffer whose samples are
all 480, every one of them a qualifying neighbour. -/
theorem smooth_point_returns_joint_witness :
    (100 : Int) < ((640 : Nat) : Int) ∧ 257 * (100 : Int) < 2147483648
    ∧ smooth_point (fun _ => 480) 640 480 (some { screen_x := 100, screen_y := 100, z := 500 })
        = some { x := 100, y := 100, z := 500 } :=
  ⟨by decide, by decide,
    (smooth_point_returns_joint (fun _ => 480) (fun _ => 0) 640 480 100 100 500 (by decide)
      (by decide) (by decide) (by decide) (by decide) (by decide)).1⟩

theorem interpret_guestures_dispatch (env : Env) (jl : SkeltrackJointList)
    (head : SkeltrackJoint) (f : Frame) (s : State) (hh : jl.head = some head) :
    interpret_guestures env (some jl) f s
      = ({ (dispatch env f.time (hand_points f head jl.left_hand jl.right_hand s).1
              (hand_points f head jl.left_hand jl.right_hand s).2).1 with
            last_left_point := (hand_points f head jl.left_hand jl.right_hand s).1.left_point,
            last_right_point := (hand_points f head jl.left_hand jl.right_hand s).1.right_point },
          (dispatch env f.time (hand_points f head jl.left_hand jl.right_hand s).1
              (hand_points f head jl.left_hand jl.right_hand s).2).2) := by
  unfold interpret_guestures
  simp only [hh]

/-- The slot phases after `single_hand`, whatever the state: an Active slot 1
stays Active and then slot 2 is Idle; a Pressed slot 2 stays Pressed or becomes
Idle. -/
theorem single_hand_phases (t : Int) (P : PointRef) (s : State) :
    (s.pointer_1_event_type = CLUTTER_MOTION →
        (single_hand t P s).1.pointer_1_event_type = CLUTTER_MOTION
        ∧ (single_hand t P s).1.pointer_2_event_type = CLUTTER_NOTHING)
    ∧ (s.pointer_2_event_type = CLUTTER_BUTTON_PRESS →
        (single_hand t P s).1.pointer_2_event_type = CLUTTER_BUTTON_PRESS
        ∨ (single_hand t P s).1.pointer_2_event_type = CLUTTER_NOTHING) := by
  rcases s with ⟨p1t, p2t, p1, p2, ll, lr, et, od, lk, hn⟩
  unfold single_hand
  by_cases hk : lk = 0 <;> cases p1t <;> cases p2t <;> simp [hk] <;>
    (try split_ifs) <;> simp_all

/-- The slot phases after the dispatch, whatever the state. -/
theorem dispatch_phases (env : Env) (t : Int) (hp : HandPoints) (s : State) :
    (s.pointer_1_event_type = CLUTTER_MOTION →
        (dispatch env t hp s).1.pointer_1_event_type = CLUTTER_MOTION
        ∨ (dispatch env t hp s).1.pointer_1_event_type = CLUTTER_NOTHING)
    ∧ (s.pointer_2_event_type = CLUTTER_BUTTON_PRESS →
        (dispatch env t hp s).1.pointer_2_event_type ≠ CLUTTER_ENTER)
    ∧ (s.pointer_1_event_type = CLUTTER_MOTION →
        s.pointer_2_event_type = CLUTTER_BUTTON_PRESS →
        (dispatch env t hp s).1.pointer_2_event_type = CLUTTER_BUTTON_PRESS
        ∨ (dispatch env t hp s).1.pointer_2_event_type = CLUTTER_NOTHING) := by
  cases hs : hp.single_point with
  | some P =>
    rw [dispatch_single env t hp s P hs]
    obtain ⟨a, b⟩ := single_hand_phases t P s
    refine ⟨fun h => Or.inl (a h).1, ?_, fun h _ => Or.inr (a h).2⟩
    intro h hc
    rcases b h with h1 | h1 <;> rw [h1] at hc <;> cases hc
  | none =>
    cases hl : hp.left_point with
    | none =>
      rw [dispatch_neither env t hp s hs (Or.inl hl)]
      obtain ⟨a, b⟩ := both_hands_left_types env s
      by_cases hc : s.last_right_point ≠ none ∨ s.last_left_point ≠ none
      · rw [if_pos hc]
        refine ⟨fun _ => Or.inr a, ?_, fun _ _ => Or.inr b⟩
        intro _ h; rw [b] at h; cases h
      · rw [if_neg hc]
        refine ⟨fun h => Or.inl h, ?_, fun _ h => Or.inl h⟩
        intro h h2; rw [h] at h2; cases h2
    | some L =>
      cases hr : hp.right_point with
      | none =>
        rw [dispatch_neither env t hp s hs (Or.inr hr)]
        obtain ⟨a, b⟩ := both_hands_left_types env s
        by_cases hc : s.last_right_point ≠ none ∨ s.last_left_point ≠ none
        · rw [if_pos hc]
          refine ⟨fun _ => Or.inr a, ?_, fun _ _ => Or.inr b⟩
          intro _ h; rw [b] at h; cases h
        · rw [if_neg hc]
          refine ⟨fun h => Or.inl h, ?_, fun _ h => Or.inl h⟩
          intro h h2; rw [h] at h2; cases h2
      | some R =>
        rw [dispatch_pair env t hp s L R hs hl hr]
        by_cases hm : s.pointer_1_event_type = CLUTTER_MOTION
        · rw [if_pos hm]
          obtain ⟨a, b⟩ := second_hand_entered_slot_2 t L R s
          have hkeep : s.pointer_2_event_type = CLUTTER_BUTTON_PRESS →
              (second_hand_entered t L R s).1.pointer_2_event_type = CLUTTER_BUTTON_PRESS := by
            intro h
            rw [if_neg (by rw [h]; decide), if_neg (by rw [h]; decide)] at b
            exact b.1.trans h
          refine ⟨fun h => Or.inl (a.trans h), ?_, fun _ h => Or.inl (hkeep h)⟩
          intro h h2
          rw [hkeep h] at h2
          cases h2
        · rw [if_neg hm]
          obtain ⟨a, b⟩ := both_hands_entered_types env L R s
          refine ⟨fun h => absurd h hm, ?_, fun h => absurd h hm⟩
          intro _ h2
          rw [b] at h2
          cases h2

/-- The slot phases after one step of `interpret_guestures`: an Active slot 1
becomes Active or Idle, a Pressed slot 2 never becomes Entering, and in a
reachable state a Pressed slot 2 becomes Pressed or Idle. -/
theorem interpret_guestures_phases (env : Env) (jl : Option SkeltrackJointList) (f : Frame)
    (s : State) :
    (s.pointer_1_event_type = CLUTTER_MOTION →
        (interpret_guestures env jl f s).1.pointer_1_event_type = CLUTTER_MOTION
        ∨ (interpret_guestures env jl f s).1.pointer_1_event_type = CLUTTER_NOTHING)
    ∧ (s.pointer_2_event_type = CLUTTER_BUTTON_PRESS →
        (interpret_guestures env jl f s).1.pointer_2_event_type ≠ CLUTTER_ENTER)
    ∧ (Reachable env s → s.pointer_2_event_type = CLUTTER_BUTTON_PRESS →
        (interpret_guestures env jl f s).1.pointer_2_event_type = CLUTTER_BUTTON_PRESS
        ∨ (interpret_guestures env jl f s).1.pointer_2_event_type = CLUTTER_NOTHING) := by
  have hsame : interpret_guestures env jl f s = (s, []) →
      (s.pointer_1_event_type = CLUTTER_MOTION →
        (interpret_guestures env jl f s).1.pointer_1_event_type = CLUTTER_MOTION
        ∨ (interpret_guestures env jl f s).1.pointer_1_event_type = CLUTTER_NOTHING)
      ∧ (s.pointer_2_event_type = CLUTTER_BUTTON_PRESS →
        (interpret_guestures env jl f s).1.pointer_2_event_type ≠ CLUTTER_ENTER)
      ∧ (Reachable env s → s.pointer_2_event_type = CLUTTER_BUTTON_PRESS →
        (interpret_guestures env jl f s).1.pointer_2_event_type = CLUTTER_BUTTON_PRESS
        ∨ (interpret_guestures env jl f s).1.pointer_2_event_type = CLUTTER_NOTHING) := by
    intro e
    rw [e]
    refine ⟨fun h => Or.inl h, ?_, fun _ h => Or.inl h⟩
    intro h h2
    rw [h] at h2
    cases h2
  cases jl with
  | none => exact hsame rfl
  | some jl =>
    cases hh : jl.head with
    | none =>
      apply hsame
      unfold interpret_guestures
      simp only [hh]
    | some head =>
      rw [interpret_guestures_dispatch env jl head f s hh]
      have hst := hand_points_state f head jl.left_hand jl.right_hand s
      generalize hand_points f head jl.left_hand jl.right_hand s = hps at hst ⊢
      obtain ⟨hp, s0⟩ := hps
      simp only at hst ⊢
      have e1 : s0.pointer_1_event_type = s.pointer_1_event_type := by rw [hst]
      have e2 : s0.pointer_2_event_type = s.pointer_2_event_type := by rw [hst]
      obtain ⟨a, b, c⟩ := dispatch_phases env f.time hp s0
      rw [e1] at a c
      rw [e2] at b c
      refine ⟨a, b, ?_⟩
      intro hreach h
      exact c ((reachable_slot_invariant env s hreach).1 (Or.inr h)) h

/-- C21. For every state the program reaches and every frame, a single step
of `interpret_guestures` never takes slot 1 from Active to Entering and never
takes slot 2 from Pressed to Entering: an Active slot 1 stays Active or
becomes Idle, and a Pressed slot 2 stays Pressed or becomes Idle. -/
theorem slot_phases_never_regress (env : Env) (jl : Option SkeltrackJointList) (f : Frame)
    (s : State) (hreach : Reachable env s) :
    (s.pointer_1_event_type = CLUTTER_MOTION →
        (interpret_guestures env jl f s).1.pointer_1_event_type ≠ CLUTTER_ENTER
        ∧ ((interpret_guestures env jl f s).1.pointer_1_event_type = CLUTTER_MOTION
          ∨ (interpret_guestures env jl f s).1.pointer_1_event_type = CLUTTER_NOTHING))
    ∧ (s.pointer_2_event_type = CLUTTER_BUTTON_PRESS →
        (interpret_guestures env jl f s).1.pointer_2_event_type ≠ CLUTTER_ENTER
        ∧ ((interpret_guestures env jl f s).1.pointer_2_event_type = CLUTTER_BUTTON_PRESS
          ∨ (interpret_guestures env jl f s).1.pointer_2_event_type = CLUTTER_NOTHING)) := by
  obtain ⟨a, b, c⟩ := interpret_guestures_phases env jl f s
  constructor
  · intro h
    refine ⟨?_, a h⟩
    intro hc
    rcases a h with h1 | h1 <;> rw [h1] at hc <;> cases hc
  · intro h
    exact ⟨b h, c hreach h⟩

/-- Witness of C21: a reachable state with slot 1 Active and slot 2 Pressed,
followed by a single-hand frame, after which slot 1 is Active and slot 2 is
Idle. -/
theorem slot_phases_never_regress_witness :
    Reachable demo_env
      (run demo_env State.init
        [(TrackResult.ok (some demo_one_hand), demo_frame 0),
         (TrackResult.ok (some demo_one_hand), demo_frame 300001),
         (TrackResult.ok (some (demo_two_hands 100 200)), demo_frame 300002),
         (TrackResult.ok (some (demo_two_hands 100 200)), demo_frame 700000)]).1
    ∧ (run demo_env State.init
        [(TrackResult.ok (some demo_one_hand), demo_frame 0),
         (TrackResult.ok (some demo_one_hand), demo_frame 300001),
         (TrackResult.ok (some (demo_two_hands 100 200)), demo_frame 300002),
         (TrackResult.ok (some (demo_two_hands 100 200)),
           demo_frame 700000)]).1.pointer_1_event_type = CLUTTER_MOTION
    ∧ (run demo_env State.init
        [(TrackResult.ok (some demo_one_hand), demo_frame 0),
         (TrackResult.ok (some demo_one_hand), demo_frame 300001),
         (TrackResult.ok (some (demo_two_hands 100 200)), demo_frame 300002),
         (TrackResult.ok (some (demo_two_hands 100 200)),
           demo_frame 700000)]).1.pointer_2_event_type = CLUTTER_BUTTON_PRESS
    ∧ (interpret_guestures demo_env (some demo_one_hand) (demo_frame 700001)
        (run demo_env State.init
          [(TrackResult.ok (some demo_one_hand), demo_frame 0),
           (TrackResult.ok (some demo_one_hand), demo_frame 300001),
           (TrackResult.ok (some (demo_two_hands 100 200)), demo_frame 300002),
           (TrackResult.ok (some (demo_two_hands 100 200)),
             demo_frame 700000)]).1).1.pointer_1_event_type ≠ CLUTTER_ENTER
    ∧ (interpret_guestures demo_env (some demo_one_hand) (demo_frame 700001)
        (run demo_env State.init
          [(TrackResult.ok (some demo_one_hand), demo_frame 0),
           (TrackResult.ok (some demo_one_hand), demo_frame 300001),
           (TrackResult.ok (some (demo_two_hands 100 200)), demo_frame 300002),
           (TrackResult.ok (some (demo_two_hands 100 200)),
             demo_frame 700000)]).1).1.pointer_2_event_type ≠ CLUTTER_ENTER
    ∧ (interpret_guestures demo_env (some demo_one_hand) (demo_frame 700001)
        (run demo_env State.init
          [(TrackResult.ok (some demo_one_hand), demo_frame 0),
           (TrackResult.ok (some demo_one_hand), demo_frame 300001),
           (TrackResult.ok (some (demo_two_hands 100 200)), demo_frame 300002),
           (TrackResult.ok (some (demo_two_hands 100 200)),
             demo_frame 700000)]).1).1.pointer_2_event_type = CLUTTER_NOTHING :=
  have hr := reachable_run demo_env
    [(TrackResult.ok (some demo_one_hand), demo_frame 0),
     (TrackResult.ok (some demo_one_hand), demo_frame 300001),
     (TrackResult.ok (some (demo_two_hands 100 200)), demo_frame 300002),
     (TrackResult.ok (some (demo_two_hands 100 200)), demo_frame 700000)]
    State.init Reachable.init
  have h1 : (run demo_env State.init
      [(TrackResult.ok (some demo_one_hand), demo_frame 0),
       (TrackResult.ok (some demo_one_hand), demo_frame 300001),
       (TrackResult.ok (some (demo_two_hands 100 200)), demo_frame 300002),
       (TrackResult.ok (some (demo_two_hands 100 200)),
         demo_frame 700000)]).1.pointer_1_event_type = CLUTTER_MOTION := by decide
  have h2 : (run demo_env State.init
      [(TrackResult.ok (some demo_one_hand), demo_frame 0),
       (TrackResult.ok (some demo_one_hand), demo_frame 300001),
       (TrackResult.ok (some (demo_two_hands 100 200)), demo_frame 300002),
       (TrackResult.ok (some (demo_two_hands 100 200)),
         demo_frame 700000)]).1.pointer_2_event_type = CLUTTER_BUTTON_PRESS := by decide
  have h := slot_phases_never_regress demo_env (some demo_one_hand) (demo_frame 700001) _ hr
  ⟨hr, h1, h2, (h.1 h1).1, (h.2 h2).1, by decide⟩

theorem is_down_append (is_key : Bool) (code : Nat) (e1 e2 : List XEvent) :
    ∀ b, is_down is_key code b (e1 ++ e2) = is_down is_key code (is_down is_key code b e1) e2 := by
  induction e1 with
  | nil => intro b; rfl
  | cons e rest ih =>
    intro b
    cases e with
    | Motion x y => simp only [List.cons_append, is_down]; exact ih _
    | Key k p => simp only [List.cons_append, is_down]; exact ih _
    | Button k p => simp only [List.cons_append, is_down]; exact ih _

/-- The events of `both_hands_left` leave button 1 released. -/
theorem both_hands_left_button (env : Env) (s : State) (b : Bool) :
    is_down false 1 b (both_hands_left env s).2 = false := by
  unfold both_hands_left
  by_cases h : s.last_key = 0 <;> simp [h, is_down]

/-- The events of `both_hands_entered` do not touch button 1. -/
theorem both_hands_entered_button (env : Env) (L R : PointRef) (s : State) (b : Bool) :
    is_down false 1 b (both_hands_entered env L R s).2 = b := by
  unfold both_hands_entered interpret_wheel_gesture interpret_pinch_gesture
  simp only [key_down, key_up, mouse_click]
  split_ifs <;> simp [is_down]

/-- The events of `second_hand_entered` press button 1 exactly when slot 2
becomes Pressed. -/
theorem second_hand_entered_button (t : Int) (L R : PointRef) (s : State) (b : Bool)
    (hb : b = true ↔ s.pointer_2_event_type = CLUTTER_BUTTON_PRESS) :
    is_down false 1 b (second_hand_entered t L R s).2 = true
      ↔ (second_hand_entered t L R s).1.pointer_2_event_type = CLUTTER_BUTTON_PRESS := by
  rw [second_hand_entered_eq, is_down_append]
  have hmotion : ∀ (c : Bool) (o : Option PointRef),
      is_down false 1 c (match o with
        | some p => set_mouse_pointer p.pt.x p.pt.y
        | none => []) = c := by
    intro c o
    cases o <;> simp [set_mouse_pointer, is_down]
  rw [hmotion]
  by_cases h1 : s.pointer_2_event_type = CLUTTER_NOTHING
  · simp only [h1, if_true]
    have : b = false := by
      cases b
      · rfl
      · have := hb.mp rfl
        rw [h1] at this
        cases this
    simp [this, is_down]
  · by_cases h2 : s.pointer_2_event_type = CLUTTER_ENTER
        ∧ t - s.pointer_enter_time > ((GESTURE_TIMEOUT * 1000 : Nat) : Int)
    · have h2b := eq_true h2
      simp only [h1, h2b, if_true, if_false]
      simp [mouse_down, is_down]
    · have h2b := eq_false h2
      simp only [h1, h2b, if_false]
      simp only [is_down]
      exact hb

/-- The events of `single_hand` leave button 1 released, and slot 2 is not
Pressed afterwards. -/
theorem single_hand_button (t : Int) (P : PointRef) (s : State) (b : Bool)
    (i1 : (s.pointer_2_event_type = CLUTTER_ENTER ∨ s.pointer_2_event_type = CLUTTER_BUTTON_PRESS) →
      s.pointer_1_event_type = CLUTTER_MOTION)
    (hb : b = true ↔ s.pointer_2_event_type = CLUTTER_BUTTON_PRESS) :
    is_down false 1 b (single_hand t P s).2 = true
      ↔ (single_hand t P s).1.pointer_2_event_type = CLUTTER_BUTTON_PRESS := by
  rcases s with ⟨p1t, p2t, p1, p2, ll, lr, et, od, lk, hn⟩
  simp only at i1 hb
  unfold single_hand
  cases b <;> by_cases hk : lk = 0 <;> cases p1t <;> cases p2t <;>
    simp [hk, is_down, key_up, mouse_up, mouse_click, set_mouse_pointer] at i1 hb ⊢ <;>
    (try split_ifs) <;> simp_all [is_down]

/-- One frame keeps button 1 down exactly when slot 2 is Pressed. -/
theorem dispatch_button (env : Env) (t : Int) (hp : HandPoints) (s : State) (b : Bool)
    (hinv : slot_invariant s)
    (hb : b = true ↔ s.pointer_2_event_type = CLUTTER_BUTTON_PRESS) :
    is_down false 1 b (dispatch env t hp s).2 = true
      ↔ (dispatch env t hp s).1.pointer_2_event_type = CLUTTER_BUTTON_PRESS := by
  have hleft : (is_down false 1 b (if s.last_right_point ≠ none ∨ s.last_left_point ≠ none then
        both_hands_left env s else (s, [])).2 = true
      ↔ (if s.last_right_point ≠ none ∨ s.last_left_point ≠ none then
        both_hands_left env s else (s, [])).1.pointer_2_event_type = CLUTTER_BUTTON_PRESS) := by
    by_cases hc : s.last_right_point ≠ none ∨ s.last_left_point ≠ none
    · rw [if_pos hc, both_hands_left_button, (both_hands_left_types env s).2]
      simp
    · rw [if_neg hc]
      simp only [is_down]
      exact hb
  cases hs : hp.single_point with
  | some P =>
    rw [dispatch_single env t hp s P hs]
    exact single_hand_button t P s b hinv.1 hb
  | none =>
    cases hl : hp.left_point with
    | none =>
      rw [dispatch_neither env t hp s hs (Or.inl hl)]
      exact hleft
    | some L =>
      cases hr : hp.right_point with
      | none =>
        rw [dispatch_neither env t hp s hs (Or.inr hr)]
        exact hleft
      | some R =>
        rw [dispatch_pair env t hp s L R hs hl hr]
        by_cases hm : s.pointer_1_event_type = CLUTTER_MOTION
        · rw [if_pos hm]
          exact second_hand_entered_button t L R s b hb
        · rw [if_neg hm, both_hands_entered_button, (both_hands_entered_types env L R s).2]
          have hnp : ¬ s.pointer_2_event_type = CLUTTER_BUTTON_PRESS :=
            fun h => hm (hinv.1 (Or.inr h))
          constructor
          · intro h; exact absurd (hb.mp h) hnp
          · intro h; cases h

theorem on_track_joints_button (env : Env) (res : TrackResult) (f : Frame) (s : State)
    (b : Bool) (hinv : slot_invariant s)
    (hb : b = true ↔ s.pointer_2_event_type = CLUTTER_BUTTON_PRESS) :
    is_down false 1 b (on_track_joints env res f s).2 = true
      ↔ (on_track_joints env res f s).1.pointer_2_event_type = CLUTTER_BUTTON_PRESS := by
  cases res with
  | error => exact hb
  | ok jl =>
    show is_down false 1 b (interpret_guestures env jl f s).2 = true
      ↔ (interpret_guestures env jl f s).1.pointer_2_event_type = CLUTTER_BUTTON_PRESS
    cases jl with
    | none => exact hb
    | some jl =>
      cases hh : jl.head with
      | none =>
        have e : interpret_guestures env (some jl) f s = (s, []) := by
          unfold interpret_guestures
          simp only [hh]
        rw [e]
        exact hb
      | some head =>
        rw [interpret_guestures_dispatch env jl head f s hh]
        have hst := hand_points_state f head jl.left_hand jl.right_hand s
        generalize hand_points f head jl.left_hand jl.right_hand s = hps at hst ⊢
        obtain ⟨hp, s0⟩ := hps
        simp only at hst ⊢
        have h0 : slot_invariant s0 := by rw [hst]; exact hinv
        have hb0 : b = true ↔ s0.pointer_2_event_type = CLUTTER_BUTTON_PRESS := by
          rw [hst]; exact hb
        exact dispatch_button env f.time hp s0 b h0 hb0

theorem on_track_joints_slot_invariant (env : Env) (res : TrackResult) (f : Frame) (s : State)
    (h : slot_invariant s) : slot_invariant (on_track_joints env res f s).1 := by
  cases res with
  | error => exact h
  | ok jl => exact interpret_guestures_slot_invariant env jl f s h

theorem run_button (env : Env) (frames : List (TrackResult × Frame)) :
    ∀ (s : State) (b : Bool), slot_invariant s →
      (b = true ↔ s.pointer_2_event_type = CLUTTER_BUTTON_PRESS) →
      (is_down false 1 b (run env s frames).2 = true
        ↔ (run env s frames).1.pointer_2_event_type = CLUTTER_BUTTON_PRESS) := by
  induction frames with
  | nil => intro s b _ hb; exact hb
  | cons p rest ih =>
    intro s b hinv hb
    have e : run env s (p :: rest)
        = ((run env (on_track_joints env p.1 p.2 s).1 rest).1,
            (on_track_joints env p.1 p.2 s).2
              ++ (run env (on_track_joints env p.1 p.2 s).1 rest).2) := rfl
    rw [e, is_down_append]
    exact ih _ _ (on_track_joints_slot_invariant env p.1 p.2 s hinv)
      (on_track_joints_button env p.1 p.2 s b hinv hb)

/-- C24. After any sequence of frames from the initial state (failed tracking,
missing joint list and missing head included), mouse button 1 is logically
down, its last event being a press, if and only if slot 2 is in phase Pressed;
and slot 2 is Entering or Pressed only while slot 1 is Active. -/
theorem button_down_iff_slot_2_pressed (env : Env) (frames : List (TrackResult × Frame)) :
    (is_down false 1 false (run env State.init frames).2 = true
      ↔ (run env State.init frames).1.pointer_2_event_type = CLUTTER_BUTTON_PRESS)
    ∧ (((run env State.init frames).1.pointer_2_event_type ≠ CLUTTER_ENTER
          ∧ (run env State.init frames).1.pointer_2_event_type ≠ CLUTTER_BUTTON_PRESS)
        ∨ (run env State.init frames).1.pointer_1_event_type = CLUTTER_MOTION) := by
  have hinit : slot_invariant State.init :=
    reachable_slot_invariant env State.init Reachable.init
  refine ⟨run_button env frames State.init false hinit ?_, ?_⟩
  · constructor
    · intro h; cases h
    · intro h; cases h
  · have hr := reachable_slot_invariant env _ (reachable_run env frames State.init Reachable.init)
    by_cases h1 : (run env State.init frames).1.pointer_2_event_type = CLUTTER_ENTER
    · exact Or.inr (hr.1 (Or.inl h1))
    · by_cases h2 : (run env State.init frames).1.pointer_2_event_type = CLUTTER_BUTTON_PRESS
      · exact Or.inr (hr.1 (Or.inr h2))
      · exact Or.inl ⟨h1, h2⟩

end Skeltrack
